import Mathlib

/-!
# Air-pollution client of `openweathermap` (pollution.go)

A shallow embedding of `NewPollution`, `PollutionByParams`,
`ForecastPollutionByParams` and `HistoricalPollutionByParams`, together with the
parts of the Go standard library those functions call: `fmt.Sprintf` for the two
verbs the URL templates use, the HTTP client as a capability, and
`encoding/json`'s `Decoder.Decode` into the `Pollution` struct.

Conventions.
* `float64` is abstract: a type `F` with the three operations of `Float64Ops`.
* Go's `int` is taken to be 64 bits wide; integers are `Int` with explicit range checks.
* A response body is given by what `Decoder.Decode` reads from it before it stores
  anything: either an error (empty body, read error, syntax error) or the first
  complete JSON value of the stream.
-/

namespace OpenWeatherMap

/-! ## Errors -/

/-- Go `error` values that reach the caller of this file's functions.
`errInvalidKey`, `errInvalidOption` and `errInvalidHttpClient` are the package's
sentinel errors; `transport` is an error returned by the HTTP client's `Get`;
`syntaxError` stands for what `Decode` returns when the body holds no complete JSON
value (`io.EOF`, a read error, `*json.SyntaxError`); `unmarshalType value goType` is
`*json.UnmarshalTypeError` with its `Value` and the name of the Go type. -/
inductive GoError where
  | errInvalidKey
  | errInvalidOption
  | errInvalidHttpClient
  | transport (msg : String)
  | syntaxError (msg : String)
  | unmarshalType (value : String) (goType : String)
  deriving DecidableEq, Repr

/-- First error wins: `decodeState.saveError` stores an error only when none is
stored yet. `saveError saved e` is the stored error after raising `e`. -/
def saveError (saved raised : Option GoError) : Option GoError :=
  match saved with
  | some e => some e
  | none => raised

/-! ## float64 and integer text -/

/-- The operations on `float64` the client uses. `parse` is
`strconv.ParseFloat(lit, 64)` on a JSON number literal (`none` on a range error),
`format` is `strconv.FormatFloat(x, 'f', -1, 64)`, `zero` the zero value. -/
structure Float64Ops (F : Type) where
  zero : F
  parse : String → Option F
  format : F → String

/-- Value of a decimal digit. -/
def digitVal (c : Char) : Option Nat :=
  if '0' ≤ c ∧ c ≤ '9' then some (c.toNat - 48) else none

/-- Base-10 reading of a non-empty run of digits, most significant first. -/
def parseDigits (cs : List Char) : Option Nat :=
  match cs with
  | [] => none
  | _ => cs.foldlM (fun acc c => (digitVal c).map (fun d => acc * 10 + d)) 0

/-- Go `strconv.ParseInt(s, 10, 64)`: a leading sign is picked off, the rest is
read as an unsigned value, and the value is checked against the `int64` range;
`none` on a syntax error or a range error. -/
def ParseInt (s : String) : Option Int :=
  match s.data with
  | [] => none
  | c :: cs =>
    if c = '+' then
      (parseDigits cs).bind (fun un => if un < 2 ^ 63 then some (un : Int) else none)
    else if c = '-' then
      (parseDigits cs).bind (fun un => if un ≤ 2 ^ 63 then some (-(un : Int)) else none)
    else
      (parseDigits (c :: cs)).bind (fun un => if un < 2 ^ 63 then some (un : Int) else none)

/-- The character of a digit value below ten. -/
def digitChar (d : Nat) : Char := Char.ofNat (48 + d)

/-- Decimal digits of an unsigned value as `fmt` writes them: the last digit is
`u % 10`, the digits before it are those of `u / 10`. The first argument bounds
the number of digits (a `uint64` has at most twenty). -/
def fmtDigits : Nat → Nat → List Char
  | 0, _ => []
  | fuel + 1, u => if u < 10 then [digitChar u] else fmtDigits fuel (u / 10) ++ [digitChar (u % 10)]

/-- Go `%d` of an `int64` (`fmt.fmtInteger`, base 10, no flags): the digits of the
magnitude, preceded by `-` for a negative value. -/
def FormatInt (n : Int) : String :=
  if n < 0 then String.mk ('-' :: fmtDigits 20 n.natAbs) else String.mk (fmtDigits 20 n.natAbs)

/-! ## fmt.Sprintf on the URL templates -/

/-- The two verbs the URL templates use. -/
inductive Verb where
  | s
  | d
  deriving DecidableEq, Repr

/-- A piece of a format string: literal text or a verb. -/
inductive Piece where
  | text (t : String)
  | verb (v : Verb)
  deriving DecidableEq, Repr

/-- An operand of `Sprintf`: the client passes Go strings and `int64`s. -/
inductive Arg where
  | string (x : String)
  | int64 (n : Int)
  deriving DecidableEq, Repr

/-- The letter of a verb. -/
def Verb.letter : Verb → String
  | .s => "s"
  | .d => "d"

/-- Go's `type=value` rendering of an operand in a `%!` diagnostic. -/
def Arg.describe : Arg → String
  | .string x => "string=" ++ x
  | .int64 n => "int64=" ++ FormatInt n

/-- One verb applied to one operand: `%s` prints a string, `%d` an integer in
base 10; a verb applied to the wrong type prints Go's `%!verb(type=value)`. -/
def formatArg : Verb → Arg → String
  | .s, .string x => x
  | .d, .int64 n => FormatInt n
  | v, a => "%!" ++ v.letter ++ "(" ++ a.describe ++ ")"

/-- Go `fmt.Sprintf` on a parsed format: operands are consumed left to right, a
verb without operand prints `%!verb(MISSING)`, unused operands are reported in a
trailing `%!(EXTRA ...)`. -/
def Sprintf : List Piece → List Arg → String
  | [], [] => ""
  | [], a :: rest => "%!(EXTRA " ++ ", ".intercalate ((a :: rest).map Arg.describe) ++ ")"
  | .text t :: ps, args => t ++ Sprintf ps args
  | .verb v :: ps, [] => "%!" ++ v.letter ++ "(MISSING)" ++ Sprintf ps []
  | .verb v :: ps, a :: args => formatArg v a ++ Sprintf ps args

/-- Modelled from the spec: the three endpoint templates (`pollutionURL`,
`forecastPollutionURL`, `historicalPollutionURL`), format strings declared elsewhere
in the package, "a fixed URL pattern with placeholders for key, coordinates, and
(for historical) time range". -/
structure Templates where
  pollutionURL : List Piece
  forecastPollutionURL : List Piece
  historicalPollutionURL : List Piece

/-- The verbs of a format, in order. -/
def verbs : List Piece → List Verb
  | [] => []
  | .text _ :: ps => verbs ps
  | .verb v :: ps => v :: verbs ps

/-- A template with its placeholders filled, in order, by the given texts. -/
def fill : List Piece → List String → String
  | [], _ => ""
  | .text t :: ps, xs => t ++ fill ps xs
  | .verb _ :: ps, [] => fill ps []
  | .verb _ :: ps, x :: xs => x ++ fill ps xs

/-- The verb that prints an operand plainly. -/
def Arg.verb : Arg → Verb
  | .string _ => .s
  | .int64 _ => .d

/-- The plain text of an operand: a string as it is, an integer in base 10. -/
def Arg.text : Arg → String
  | .string x => x
  | .int64 n => FormatInt n

/-! ## JSON values and the decoder -/

/-- A JSON value as the decoder's scanner delivers it; a number keeps its literal
text, an object keeps its members in order (duplicates included). -/
inductive JSON where
  | null
  | bool (b : Bool)
  | number (lit : String)
  | string (s : String)
  | array (elems : List JSON)
  | object (members : List (String × JSON))

/-- The `Value` text of an `UnmarshalTypeError` for a JSON value that cannot be
stored in a target that is neither numeric nor an interface. -/
def JSON.kind : JSON → String
  | .null => "null"
  | .bool _ => "bool"
  | .number _ => "number"
  | .string _ => "string"
  | .array _ => "array"
  | .object _ => "object"

/-- What `Decoder.Decode` reads from a response body before storing anything. -/
inductive Body where
  | invalid (err : GoError)
  | value (v : JSON)

/-- Case folding of one rune as `encoding/json` folds member names: ASCII letters
to upper case, and the two non-ASCII runes whose fold orbit contains an ASCII
letter (KELVIN SIGN, LATIN SMALL LETTER LONG S) to that letter. -/
def foldRune (c : Char) : Char :=
  if c = Char.ofNat 0x212A then 'K'
  else if c = Char.ofNat 0x017F then 'S'
  else c.toUpper

/-- Folded form of a member name. -/
def foldName (s : String) : String := String.mk (s.data.map foldRune)

/-- A struct field the decoder knows: the JSON name (the tag, or the Go name of an
untagged exported field) and the store of a member's value into that field. The
store returns the struct after it and the error it raised, if any. -/
structure Field (S : Type) where
  name : String
  store : JSON → S → S × Option GoError

/-- Field of a member name: an exact match is preferred, a match of the folded
names is accepted otherwise. -/
def findField {S : Type} (fields : List (Field S)) (key : String) : Option (Field S) :=
  match fields.find? (fun f => f.name == key) with
  | some f => some f
  | none => fields.find? (fun f => foldName f.name == foldName key)

/-- The decoder on the members of a JSON object with a struct as target
(`decodeState.object`): members are taken in order, a member whose name matches no
field is skipped, an error is saved and decoding goes on. -/
def decodeMembers {S : Type} (fields : List (Field S)) (members : List (String × JSON))
    (st : S × Option GoError) : S × Option GoError :=
  members.foldl (fun acc m =>
    match findField fields m.1 with
    | some f => ((f.store m.2 acc.1).1, saveError acc.2 (f.store m.2 acc.1).2)
    | none => acc) st

/-- Store of a JSON value into a struct: `null` is ignored, an object is decoded
member by member, anything else raises an `UnmarshalTypeError`. -/
def storeStruct {S : Type} (goType : String) (fields : List (Field S)) (v : JSON) (s : S) :
    S × Option GoError :=
  match v with
  | .null => (s, none)
  | .object members => decodeMembers fields members (s, none)
  | other => (s, some (.unmarshalType other.kind goType))

/-- Store of a JSON value into a Go `string` (no `,string` option). -/
def storeString (v : JSON) (cur : String) : String × Option GoError :=
  match v with
  | .null => (cur, none)
  | .string s => (s, none)
  | other => (cur, some (.unmarshalType other.kind "string"))

/-- Store of a JSON value into a Go `int`. -/
def storeInt (v : JSON) (cur : Int) : Int × Option GoError :=
  match v with
  | .null => (cur, none)
  | .number lit =>
    match ParseInt lit with
    | some n => (n, none)
    | none => (cur, some (.unmarshalType ("number " ++ lit) "int"))
  | other => (cur, some (.unmarshalType other.kind "int"))

/-- Store of a JSON value into a Go `float64`. -/
def storeFloat64 {F : Type} (fm : Float64Ops F) (v : JSON) (cur : F) : F × Option GoError :=
  match v with
  | .null => (cur, none)
  | .number lit =>
    match fm.parse lit with
    | some x => (x, none)
    | none => (cur, some (.unmarshalType ("number " ++ lit) "float64"))
  | other => (cur, some (.unmarshalType other.kind "float64"))

/-- A Go slice as far as this program can observe it: `store` holds the elements
of the backing array that were ever written (those past it are zero in every Go
version, the capacity itself is never read), `len` is the slice's length. The
slice's elements are `store.take len`; elements of `store` past `len` are stale
data the decoder decodes into when the slice grows again. -/
structure GoSlice (α : Type) where
  store : List α
  len : Nat
  deriving DecidableEq

/-- The elements of a slice. -/
def GoSlice.elems {α : Type} (s : GoSlice α) : List α := s.store.take s.len

/-- The loop of `decodeState.array` on a slice: element `i` of the JSON array is
decoded into element `i` of the backing array as it stands (a previous element, a
stale one, or a zero one after growth). -/
def decodeElems {α : Type} (zero : α) (dec : JSON → α → α × Option GoError) :
    List JSON → Nat → List α → List α × Option GoError
  | [], _, store => (store, none)
  | e :: es, i, store =>
    let r := dec e (store.getD i zero)
    let store1 := if i < store.length then store.set i r.1 else store ++ [r.1]
    let rest := decodeElems zero dec es (i + 1) store1
    (rest.1, saveError r.2 rest.2)

/-- Store of a JSON value into a slice: `null` sets the slice to nil, an empty
array to a fresh empty slice, a non-empty array runs the loop and sets the length
to the number of elements, anything else raises an `UnmarshalTypeError`. -/
def storeSlice {α : Type} (goType : String) (zero : α) (dec : JSON → α → α × Option GoError)
    (v : JSON) (s : GoSlice α) : GoSlice α × Option GoError :=
  match v with
  | .null => (⟨[], 0⟩, none)
  | .array [] => (⟨[], 0⟩, none)
  | .array (e :: es) =>
    (⟨(decodeElems zero dec (e :: es) 0 s.store).1, (e :: es).length⟩,
      (decodeElems zero dec (e :: es) 0 s.store).2)
  | other => (s, some (.unmarshalType other.kind goType))

/-! ## The data model of pollution.go -/

/-- Modelled from the spec: `Coordinates`, declared elsewhere in the package: the
`coord` object of a response, with a float `lat` and a float `lon`. -/
@[ext]
structure Coordinates (F : Type) where
  Longitude : F
  Latitude : F
  deriving DecidableEq

/-- Go `PollutionParameters`. -/
structure PollutionParameters (F : Type) where
  Location : Coordinates F

/-- Go `HistoricalPollutionParameters`; `Start` and `End` are `int64`. -/
structure HistoricalPollutionParameters (F : Type) where
  Location : Coordinates F
  Start : Int
  End : Int

/-- The anonymous struct of `PollutionData.Main`. -/
@[ext]
structure MainData (F : Type) where
  Aqi : F
  deriving DecidableEq

/-- The anonymous struct of `PollutionData.Components`. -/
@[ext]
structure ComponentsData (F : Type) where
  Co : F
  No : F
  No2 : F
  O3 : F
  So2 : F
  Pm25 : F
  Pm10 : F
  Nh3 : F
  deriving DecidableEq

/-- Go `PollutionData`. -/
@[ext]
structure PollutionData (F : Type) where
  Dt : Int
  Main : MainData F
  Components : ComponentsData F
  deriving DecidableEq

/-- An HTTP response as the client reads it. -/
structure Response where
  StatusCode : Int
  Body : Body

/-- The HTTP client capability: `Get(url)` gives a response or an error. -/
structure HttpClient where
  Get : String → Except GoError Response

/-- Modelled from the spec: `Settings`, declared elsewhere in the package: the
client configuration holds the HTTP client; it has no exported field, so the JSON
decoder sees no field of it. -/
structure Settings where
  client : HttpClient

/-- Go `Pollution`: the decoded result (`Dt`, `Location`, `List`), the API key
and the embedded `*Settings`. -/
structure Pollution (F : Type) where
  Dt : String
  Location : Coordinates F
  List : GoSlice (PollutionData F)
  Key : String
  Settings : Settings

/-- Zero value of `PollutionData`. -/
def PollutionData.zero {F : Type} (fm : Float64Ops F) : PollutionData F :=
  ⟨0, ⟨fm.zero⟩, ⟨fm.zero, fm.zero, fm.zero, fm.zero, fm.zero, fm.zero, fm.zero, fm.zero⟩⟩

/-! ## The decoder's view of the structs -/

/-- Fields of `Coordinates`. -/
def coordinatesFields {F : Type} (fm : Float64Ops F) : List (Field (Coordinates F)) :=
  [ ⟨"lon", fun v s => (⟨(storeFloat64 fm v s.Longitude).1, s.Latitude⟩, (storeFloat64 fm v s.Longitude).2)⟩,
    ⟨"lat", fun v s => (⟨s.Longitude, (storeFloat64 fm v s.Latitude).1⟩, (storeFloat64 fm v s.Latitude).2)⟩ ]

/-- Fields of the `Main` struct. -/
def mainFields {F : Type} (fm : Float64Ops F) : List (Field (MainData F)) :=
  [ ⟨"aqi", fun v s => (⟨(storeFloat64 fm v s.Aqi).1⟩, (storeFloat64 fm v s.Aqi).2)⟩ ]

/-- Fields of the `Components` struct. -/
def componentsFields {F : Type} (fm : Float64Ops F) : List (Field (ComponentsData F)) :=
  [ ⟨"co", fun v s => ({ s with Co := (storeFloat64 fm v s.Co).1 }, (storeFloat64 fm v s.Co).2)⟩,
    ⟨"no", fun v s => ({ s with No := (storeFloat64 fm v s.No).1 }, (storeFloat64 fm v s.No).2)⟩,
    ⟨"no2", fun v s => ({ s with No2 := (storeFloat64 fm v s.No2).1 }, (storeFloat64 fm v s.No2).2)⟩,
    ⟨"o3", fun v s => ({ s with O3 := (storeFloat64 fm v s.O3).1 }, (storeFloat64 fm v s.O3).2)⟩,
    ⟨"so2", fun v s => ({ s with So2 := (storeFloat64 fm v s.So2).1 }, (storeFloat64 fm v s.So2).2)⟩,
    ⟨"pm2_5", fun v s => ({ s with Pm25 := (storeFloat64 fm v s.Pm25).1 }, (storeFloat64 fm v s.Pm25).2)⟩,
    ⟨"pm10", fun v s => ({ s with Pm10 := (storeFloat64 fm v s.Pm10).1 }, (storeFloat64 fm v s.Pm10).2)⟩,
    ⟨"nh3", fun v s => ({ s with Nh3 := (storeFloat64 fm v s.Nh3).1 }, (storeFloat64 fm v s.Nh3).2)⟩ ]

/-- Fields of `PollutionData`. -/
def pollutionDataFields {F : Type} (fm : Float64Ops F) : List (Field (PollutionData F)) :=
  [ ⟨"dt", fun v s => ({ s with Dt := (storeInt v s.Dt).1 }, (storeInt v s.Dt).2)⟩,
    ⟨"main", fun v s =>
      ({ s with Main := (storeStruct "Main" (mainFields fm) v s.Main).1 },
        (storeStruct "Main" (mainFields fm) v s.Main).2)⟩,
    ⟨"components", fun v s =>
      ({ s with Components := (storeStruct "Components" (componentsFields fm) v s.Components).1 },
        (storeStruct "Components" (componentsFields fm) v s.Components).2)⟩ ]

/-- Store of a JSON value into one `PollutionData` element of the list. -/
def storePollutionData {F : Type} (fm : Float64Ops F) (v : JSON) (s : PollutionData F) :
    PollutionData F × Option GoError :=
  storeStruct "PollutionData" (pollutionDataFields fm) v s

/-- Fields of `Pollution`: the three tagged ones and `Key`, an exported field
without tag, which the decoder knows under its Go name. The embedded `*Settings`
contributes no field. -/
def pollutionFields {F : Type} (fm : Float64Ops F) : List (Field (Pollution F)) :=
  [ ⟨"dt", fun v p => ({ p with Dt := (storeString v p.Dt).1 }, (storeString v p.Dt).2)⟩,
    ⟨"coord", fun v p =>
      ({ p with Location := (storeStruct "Coordinates" (coordinatesFields fm) v p.Location).1 },
        (storeStruct "Coordinates" (coordinatesFields fm) v p.Location).2)⟩,
    ⟨"list", fun v p =>
      ({ p with List := (storeSlice "[]PollutionData" (PollutionData.zero fm)
            (storePollutionData fm) v p.List).1 },
        (storeSlice "[]PollutionData" (PollutionData.zero fm) (storePollutionData fm) v p.List).2)⟩,
    ⟨"Key", fun v p => ({ p with Key := (storeString v p.Key).1 }, (storeString v p.Key).2)⟩ ]

/-- Go `json.NewDecoder(response.Body).Decode(&p)` with `p` a non-nil `*Pollution`:
the client after the call and the error returned. A body without a complete JSON
value gives its error and stores nothing; `null` sets only the local pointer and
leaves the client as it is; an object is decoded into the client in place; any
other value raises an `UnmarshalTypeError`. -/
def Decode {F : Type} (fm : Float64Ops F) (body : Body) (p : Pollution F) :
    Pollution F × Option GoError :=
  match body with
  | .invalid err => (p, some err)
  | .value v => storeStruct "Pollution" (pollutionFields fm) v p

/-! ## Construction -/

/-- Modelled from the spec: `setKey`, declared elsewhere in the package:
construction "fails with InvalidKey when apiKey is empty", "a one-line non-empty
check". -/
def setKey (key : String) : Except GoError String :=
  if key = "" then .error .errInvalidKey else .ok key

/-- Modelled from the spec: `NewSettings`, declared elsewhere in the package: the
default settings hold the default HTTP client. -/
def NewSettings (defaultClient : HttpClient) : Settings := ⟨defaultClient⟩

/-- Modelled from the spec: the package's `Option` type, a configuration function
applied to the settings that may fail; Go's nil option is `none`. -/
abbrev ClientOption : Type := Option (Settings → Except GoError Settings)

/-- Modelled from the spec: `WithHttpClient`, declared elsewhere in the package:
it "replaces the transport capability, failing if client is null". -/
def WithHttpClient (c : Option HttpClient) : ClientOption :=
  some (fun s => match c with
    | none => .error .errInvalidHttpClient
    | some hc => .ok { s with client := hc })

/-- Modelled from the spec: one step of `setOptions`: a nil option "fails
construction with InvalidOption", any other option is applied to the settings. -/
def applyOption (settings : Settings) : ClientOption → Except GoError Settings
  | none => .error .errInvalidOption
  | some option => option settings

/-- Modelled from the spec: `setOptions`, declared elsewhere in the package: it
"applies a sequence of configuration options in order"; "any option failure
aborts construction". -/
def setOptions (settings : Settings) : List ClientOption → Except GoError Settings
  | [] => .ok settings
  | option :: rest =>
    match applyOption settings option with
    | .error err => .error err
    | .ok settings1 => setOptions settings1 rest

/-- Go `NewPollution`; `defaultClient` is the HTTP client of `NewSettings()`. The
result is the client or the error, never both. -/
def NewPollution {F : Type} (fm : Float64Ops F) (defaultClient : HttpClient) (key : String)
    (options : List ClientOption) : Except GoError (Pollution F) :=
  match setKey key with
  | .error err => .error err
  | .ok k =>
    match setOptions (NewSettings defaultClient) options with
    | .error err => .error err
    | .ok settings =>
      .ok { Dt := "", Location := ⟨fm.zero, fm.zero⟩, List := ⟨[], 0⟩, Key := k, Settings := settings }

/-! ## The three calls -/

/-- What a call does to the outside, in order. -/
inductive Event where
  | get (url : String)
  | decode
  | closeBody
  deriving DecidableEq, Repr

/-- Outcome of a call: the returned error (`none` for nil), the client after the
call, and the events of the call. -/
structure CallResult (F : Type) where
  err : Option GoError
  client : Pollution F
  events : List Event

/-- Go `http.StatusUnauthorized`. -/
def StatusUnauthorized : Int := 401

/-- Go `(*Pollution).PollutionByParams`. -/
def PollutionByParams {F : Type} (fm : Float64Ops F) (t : Templates) (p : Pollution F)
    (params : PollutionParameters F) : CallResult F :=
  let url := Sprintf t.pollutionURL
    [.string p.Key, .string (fm.format params.Location.Latitude),
      .string (fm.format params.Location.Longitude)]
  match p.Settings.client.Get url with
  | .error err => ⟨some err, p, [.get url]⟩
  | .ok response =>
    if response.StatusCode = StatusUnauthorized then
      ⟨some .errInvalidKey, p, [.get url, .closeBody]⟩
    else
      match (Decode fm response.Body p).2 with
      | some err => ⟨some err, (Decode fm response.Body p).1, [.get url, .decode, .closeBody]⟩
      | none => ⟨none, (Decode fm response.Body p).1, [.get url, .decode, .closeBody]⟩

/-- Go `(*Pollution).ForecastPollutionByParams`. -/
def ForecastPollutionByParams {F : Type} (fm : Float64Ops F) (t : Templates) (p : Pollution F)
    (params : PollutionParameters F) : CallResult F :=
  let url := Sprintf t.forecastPollutionURL
    [.string p.Key, .string (fm.format params.Location.Latitude),
      .string (fm.format params.Location.Longitude)]
  match p.Settings.client.Get url with
  | .error err => ⟨some err, p, [.get url]⟩
  | .ok response =>
    if response.StatusCode = StatusUnauthorized then
      ⟨some .errInvalidKey, p, [.get url, .closeBody]⟩
    else
      match (Decode fm response.Body p).2 with
      | some err => ⟨some err, (Decode fm response.Body p).1, [.get url, .decode, .closeBody]⟩
      | none => ⟨none, (Decode fm response.Body p).1, [.get url, .decode, .closeBody]⟩

/-- Go `(*Pollution).HistoricalPollutionByParams`. -/
def HistoricalPollutionByParams {F : Type} (fm : Float64Ops F) (t : Templates) (p : Pollution F)
    (params : HistoricalPollutionParameters F) : CallResult F :=
  let url := Sprintf t.historicalPollutionURL
    [.string p.Key, .string (fm.format params.Location.Latitude),
      .string (fm.format params.Location.Longitude), .int64 params.Start, .int64 params.End]
  match p.Settings.client.Get url with
  | .error err => ⟨some err, p, [.get url]⟩
  | .ok response =>
    if response.StatusCode = StatusUnauthorized then
      ⟨some .errInvalidKey, p, [.get url, .closeBody]⟩
    else
      match (Decode fm response.Body p).2 with
      | some err => ⟨some err, (Decode fm response.Body p).1, [.get url, .decode, .closeBody]⟩
      | none => ⟨none, (Decode fm response.Body p).1, [.get url, .decode, .closeBody]⟩

/-! ## The three calls as one family -/

/-- One of the three calls together with its parameters. -/
inductive Call (F : Type) where
  | current (params : PollutionParameters F)
  | forecast (params : PollutionParameters F)
  | historical (params : HistoricalPollutionParameters F)

/-- The URL a call requests: the first argument of its `p.client.Get`. -/
def Call.url {F : Type} (fm : Float64Ops F) (t : Templates) (p : Pollution F) : Call F → String
  | .current params => Sprintf t.pollutionURL
      [.string p.Key, .string (fm.format params.Location.Latitude),
        .string (fm.format params.Location.Longitude)]
  | .forecast params => Sprintf t.forecastPollutionURL
      [.string p.Key, .string (fm.format params.Location.Latitude),
        .string (fm.format params.Location.Longitude)]
  | .historical params => Sprintf t.historicalPollutionURL
      [.string p.Key, .string (fm.format params.Location.Latitude),
        .string (fm.format params.Location.Longitude), .int64 params.Start, .int64 params.End]

/-- Running a call on a client. -/
def Call.run {F : Type} (fm : Float64Ops F) (t : Templates) (p : Pollution F) : Call F → CallResult F
  | .current params => PollutionByParams fm t p params
  | .forecast params => ForecastPollutionByParams fm t p params
  | .historical params => HistoricalPollutionByParams fm t p params

/-- The GET requests among the events of a call. -/
def getRequests (events : List Event) : List String :=
  events.filterMap (fun e => match e with
    | .get url => some url
    | _ => none)

/-! ## Shapes of JSON values -/

/-- A member name matches a field name when their folded forms are equal. -/
def nameMatch (key name : String) : Bool := foldName name == foldName key

/-- The values of the members of an object whose name matches `name`, in order. -/
def memberValues (members : List (String × JSON)) (name : String) : List JSON :=
  (members.filter (fun m => nameMatch m.1 name)).map Prod.snd

/-- The object has exactly one member named `name`, a number literal that
`ParseFloat` reads as `x`. -/
def HasFloat {F : Type} (fm : Float64Ops F) (members : List (String × JSON)) (name : String)
    (x : F) : Prop :=
  ∃ lit, memberValues members name = [.number lit] ∧ fm.parse lit = some x

/-- The object has exactly one member named `name`, a number literal that
`ParseInt` reads as `n`. -/
def HasInt (members : List (String × JSON)) (name : String) (n : Int) : Prop :=
  ∃ lit, memberValues members name = [.number lit] ∧ ParseInt lit = some n

/-- A JSON value is an element of the expected `list` array carrying the values of
`e`: an object with exactly one `dt` (an integer), one `main` (an object with
exactly one `aqi`) and one `components` (an object with exactly one of each of the
eight components); members with other names are allowed anywhere. -/
def EntryShape {F : Type} (fm : Float64Ops F) (v : JSON) (e : PollutionData F) : Prop :=
  ∃ ms mm cm, v = .object ms ∧
    HasInt ms "dt" e.Dt ∧
    memberValues ms "main" = [.object mm] ∧
    HasFloat fm mm "aqi" e.Main.Aqi ∧
    memberValues ms "components" = [.object cm] ∧
    HasFloat fm cm "co" e.Components.Co ∧
    HasFloat fm cm "no" e.Components.No ∧
    HasFloat fm cm "no2" e.Components.No2 ∧
    HasFloat fm cm "o3" e.Components.O3 ∧
    HasFloat fm cm "so2" e.Components.So2 ∧
    HasFloat fm cm "pm2_5" e.Components.Pm25 ∧
    HasFloat fm cm "pm10" e.Components.Pm10 ∧
    HasFloat fm cm "nh3" e.Components.Nh3

/-- A JSON value is a `coord` of the expected shape: an object whose `lat` and
`lon` members, as far as present, are numbers `ParseFloat` accepts. -/
def CoordShape {F : Type} (fm : Float64Ops F) (v : JSON) : Prop :=
  ∃ cm, v = .object cm ∧
    ∀ m ∈ cm, (nameMatch m.1 "lat" = true ∨ nameMatch m.1 "lon" = true) →
      ∃ lit x, m.2 = .number lit ∧ fm.parse lit = some x

/-- The members of a response object have the expected shape and carry the entries
`es`: exactly one `list` member, an array whose elements have the shape of an
entry; every `dt` member is a JSON string; every `coord` member has the shape of
a `coord`; no member is named `Key`; members with other names are allowed. -/
def MembersShape {F : Type} (fm : Float64Ops F) (members : List (String × JSON))
    (es : List (PollutionData F)) : Prop :=
  (∃ elems, memberValues members "list" = [.array elems] ∧ List.Forall₂ (EntryShape fm) elems es) ∧
    (∀ m ∈ members, nameMatch m.1 "dt" = true → ∃ s, m.2 = .string s) ∧
    (∀ m ∈ members, nameMatch m.1 "coord" = true → CoordShape fm m.2) ∧
    (∀ m ∈ members, nameMatch m.1 "Key" = false)

/-- A response body is a well-formed JSON object of the expected shape carrying
the entries `es`. -/
def BodyShape {F : Type} (fm : Float64Ops F) (body : Body) (es : List (PollutionData F)) : Prop :=
  ∃ members, body = .value (.object members) ∧ MembersShape fm members es

/-! ## Sample data for the concrete instances -/

/-- A `float64` model for concrete instances: a value is its decimal text. -/
def textFloat : Float64Ops String := ⟨"0", fun lit => some lit, fun x => x⟩

/-- The URL templates of the OpenWeatherMap air-pollution endpoints. -/
def sampleTemplates : Templates :=
  { pollutionURL :=
      [.text "https://api.openweathermap.org/data/2.5/air_pollution?appid=", .verb .s,
        .text "&lat=", .verb .s, .text "&lon=", .verb .s],
    forecastPollutionURL :=
      [.text "https://api.openweathermap.org/data/2.5/air_pollution/forecast?appid=", .verb .s,
        .text "&lat=", .verb .s, .text "&lon=", .verb .s],
    historicalPollutionURL :=
      [.text "https://api.openweathermap.org/data/2.5/air_pollution/history?appid=", .verb .s,
        .text "&lat=", .verb .s, .text "&lon=", .verb .s, .text "&start=", .verb .d,
        .text "&end=", .verb .d] }

/-- An HTTP client that answers every request with the same outcome. -/
def constClient (outcome : Except GoError Response) : HttpClient := ⟨fun _ => outcome⟩

/-- A client with key `abc` and an empty result, over the given transport. -/
def sampleClient (outcome : Except GoError Response) : Pollution String :=
  { Dt := "", Location := ⟨"0", "0"⟩, List := ⟨[], 0⟩, Key := "abc",
    Settings := ⟨constClient outcome⟩ }

/-- The parameters of the package's tests: latitude 0, longitude 10. -/
def sampleParams : PollutionParameters String := ⟨⟨"10", "0"⟩⟩

/-- The parameters of `TestHistoricalPollutionByParams`. -/
def sampleHistorical : HistoricalPollutionParameters String :=
  ⟨⟨"10", "0"⟩, 1606223802, 1606482999⟩

/-- An element of the `list` array as the API sends it. -/
def sampleEntryJSON : JSON :=
  .object [("main", .object [("aqi", .number "2")]),
    ("components", .object [("co", .number "230.31"), ("no", .number "0"),
      ("no2", .number "0.47"), ("o3", .number "68.66"), ("so2", .number "0.2"),
      ("pm2_5", .number "0.5"), ("pm10", .number "0.82"), ("nh3", .number "0.11")]),
    ("dt", .number "1606223802")]

/-- The entry `sampleEntryJSON` carries. -/
def sampleEntry : PollutionData String :=
  ⟨1606223802, ⟨"2"⟩, ⟨"230.31", "0", "0.47", "68.66", "0.2", "0.5", "0.82", "0.11"⟩⟩

/-- The members of a response object as the API sends it. -/
def sampleMembers : List (String × JSON) :=
  [("coord", .object [("lon", .number "10"), ("lat", .number "0")]),
    ("list", .array [sampleEntryJSON])]

/-- A response body as the API sends it. -/
def sampleBody : Body := .value (.object sampleMembers)

/-- The URL of the forecast call for the sample client and parameters. -/
def sampleForecastURL : String :=
  "https://api.openweathermap.org/data/2.5/air_pollution/forecast?appid=abc&lat=0&lon=10"

/-- An HTTP client that answers a forecast request with status 200 and the empty
JSON object, and every other request with status 200 and a complete body with a
top-level `dt`. -/
def twoAnswersClient : HttpClient :=
  ⟨fun url =>
    if url = sampleForecastURL then .ok ⟨200, .value (.object [])⟩
    else .ok ⟨200, .value (.object (("dt", .string "2020-11-24") :: sampleMembers))⟩⟩

/-- A freshly constructed client with key `abc` over `twoAnswersClient`. -/
def freshClient : Pollution String :=
  { Dt := "", Location := ⟨"0", "0"⟩, List := ⟨[], 0⟩, Key := "abc",
    Settings := ⟨twoAnswersClient⟩ }

/-! ## Construction: theorems -/

/-- C2. `NewPollution(key)` without options returns `errInvalidKey` and no client
for the empty key, and for every other key a client whose `Key` is the given key,
with the default settings and an empty result; so it succeeds exactly when the key
is non-empty. -/
theorem NewPollution_no_options {F : Type} (fm : Float64Ops F) (defaultClient : HttpClient)
    (key : String) :
    NewPollution fm defaultClient key [] =
        (if key = "" then .error .errInvalidKey
         else .ok { Dt := "", Location := ⟨fm.zero, fm.zero⟩, List := ⟨[], 0⟩, Key := key,
                    Settings := NewSettings defaultClient }) ∧
      ((∃ p, NewPollution fm defaultClient key [] = .ok p) ↔ key ≠ "") := by
  by_cases h : key = ""
  · simp [NewPollution, setKey, h]
  · simp [NewPollution, setKey, setOptions, h]

/-- Applying options that all succeed and then more options is applying the rest
to the settings the first ones gave. -/
theorem setOptions_append (s s1 : Settings) (pre rest : List ClientOption)
    (hpre : setOptions s pre = .ok s1) : setOptions s (pre ++ rest) = setOptions s1 rest := by
  induction pre generalizing s with
  | nil =>
    simp only [setOptions, Except.ok.injEq] at hpre
    simp [hpre]
  | cons o pre ih =>
    simp only [List.cons_append, setOptions] at hpre ⊢
    cases ho : applyOption s o with
    | error err => simp [ho] at hpre
    | ok s2 =>
      simp only [ho] at hpre ⊢
      exact ih s2 hpre

/-- C3. For a non-empty key and an option list `pre ++ bad :: post` in which the
options of `pre` all succeed and `bad` fails with `err` on the settings they gave,
`NewPollution` returns no client and `err`, whatever follows `bad`. A nil option
fails with `errInvalidOption` and `WithHttpClient(nil)` with `errInvalidHttpClient`,
on any settings. -/
theorem NewPollution_first_failing_option {F : Type} (fm : Float64Ops F)
    (defaultClient : HttpClient) (key : String) (pre post : List ClientOption)
    (bad : ClientOption) (s1 : Settings) (err : GoError)
    (hkey : key ≠ "")
    (hpre : setOptions (NewSettings defaultClient) pre = .ok s1)
    (hbad : applyOption s1 bad = .error err) :
    NewPollution fm defaultClient key (pre ++ bad :: post) = .error err ∧
      (∀ s, applyOption s none = .error .errInvalidOption) ∧
      (∀ s, applyOption s (WithHttpClient none) = .error .errInvalidHttpClient) := by
  refine ⟨?_, fun s => rfl, fun s => rfl⟩
  have h := setOptions_append (NewSettings defaultClient) s1 pre (bad :: post) hpre
  simp [NewPollution, setKey, hkey, h, setOptions, hbad]

/-- C3 at the option lists of `TestNewPollutionWithInvalidOptions`: a nil option
after a valid `WithHttpClient` option. -/
theorem NewPollution_first_failing_option_witness :
    NewPollution textFloat (constClient (.error (.transport "down"))) "abc"
        ([WithHttpClient (some (constClient (.error (.transport "other"))))] ++ none :: []) =
        .error .errInvalidOption ∧
      (∀ s, applyOption s none = .error .errInvalidOption) ∧
      (∀ s, applyOption s (WithHttpClient none) = .error .errInvalidHttpClient) :=
  NewPollution_first_failing_option textFloat (constClient (.error (.transport "down"))) "abc"
    [WithHttpClient (some (constClient (.error (.transport "other"))))] [] none
    ⟨constClient (.error (.transport "other"))⟩ .errInvalidOption (by decide) rfl rfl

/-! ## The shared protocol of the three calls -/

/-- A call whose GET fails returns the transport's error after that single event. -/
theorem Call.run_of_get_error {F : Type} (fm : Float64Ops F) (t : Templates) (p : Pollution F)
    (c : Call F) (e : GoError) (hget : p.Settings.client.Get (c.url fm t p) = .error e) :
    c.run fm t p = ⟨some e, p, [.get (c.url fm t p)]⟩ := by
  cases c <;>
    simp only [Call.url] at hget <;>
    simp [Call.run, Call.url, PollutionByParams, ForecastPollutionByParams,
      HistoricalPollutionByParams, hget]

/-- A call answered with status 401 returns `errInvalidKey` without decoding. -/
theorem Call.run_of_unauthorized {F : Type} (fm : Float64Ops F) (t : Templates) (p : Pollution F)
    (c : Call F) (r : Response) (hget : p.Settings.client.Get (c.url fm t p) = .ok r)
    (hs : r.StatusCode = StatusUnauthorized) :
    c.run fm t p = ⟨some .errInvalidKey, p, [.get (c.url fm t p), .closeBody]⟩ := by
  cases c <;>
    simp only [Call.url] at hget <;>
    simp [Call.run, Call.url, PollutionByParams, ForecastPollutionByParams,
      HistoricalPollutionByParams, hget, hs]

/-- A call answered with any other status returns what decoding the body into the
client returns. -/
theorem Call.run_of_other_status {F : Type} (fm : Float64Ops F) (t : Templates) (p : Pollution F)
    (c : Call F) (r : Response) (hget : p.Settings.client.Get (c.url fm t p) = .ok r)
    (hs : r.StatusCode ≠ StatusUnauthorized) :
    c.run fm t p =
      ⟨(Decode fm r.Body p).2, (Decode fm r.Body p).1,
        [.get (c.url fm t p), .decode, .closeBody]⟩ := by
  cases c <;>
    simp only [Call.url] at hget <;>
    simp only [Call.run, Call.url, PollutionByParams, ForecastPollutionByParams,
      HistoricalPollutionByParams, hget, hs, if_false] <;>
    cases h : (Decode fm r.Body p).2 <;> rfl

/-- C1. For every client, every call of the three and every response with status
401, whatever its body, the call returns `errInvalidKey`, the client after the call
is the client before it (so `Dt`, `Location`, `List` and `Key` are unchanged), and
the body is not decoded. -/
theorem unauthorized_returns_errInvalidKey {F : Type} (fm : Float64Ops F) (t : Templates)
    (p : Pollution F) (c : Call F) (r : Response)
    (hget : p.Settings.client.Get (c.url fm t p) = .ok r)
    (hs : r.StatusCode = 401) :
    (c.run fm t p).err = some .errInvalidKey ∧ (c.run fm t p).client = p ∧
      Event.decode ∉ (c.run fm t p).events := by
  rw [Call.run_of_unauthorized fm t p c r hget hs]
  simp

/-- C1 at a 401 response whose body is a complete pollution object. -/
theorem unauthorized_returns_errInvalidKey_witness :
    ((Call.current sampleParams).run textFloat sampleTemplates
        (sampleClient (.ok ⟨401, .value (.object [("dt", .string "1"),
          ("list", .array [.object [("dt", .number "5")]])])⟩))).err = some .errInvalidKey ∧
      ((Call.current sampleParams).run textFloat sampleTemplates
        (sampleClient (.ok ⟨401, .value (.object [("dt", .string "1"),
          ("list", .array [.object [("dt", .number "5")]])])⟩))).client =
        sampleClient (.ok ⟨401, .value (.object [("dt", .string "1"),
          ("list", .array [.object [("dt", .number "5")]])])⟩) ∧
      Event.decode ∉ ((Call.current sampleParams).run textFloat sampleTemplates
        (sampleClient (.ok ⟨401, .value (.object [("dt", .string "1"),
          ("list", .array [.object [("dt", .number "5")]])])⟩))).events :=
  unauthorized_returns_errInvalidKey textFloat sampleTemplates _ (Call.current sampleParams)
    ⟨401, .value (.object [("dt", .string "1"),
      ("list", .array [.object [("dt", .number "5")]])])⟩ rfl rfl

/-- C6. For every client and every call of the three, when the HTTP client's `Get`
returns an error the call returns exactly that error, its only event is the one
GET (no second GET, no decode), and the client after the call is the client before
it. -/
theorem transport_error_propagated {F : Type} (fm : Float64Ops F) (t : Templates)
    (p : Pollution F) (c : Call F) (e : GoError)
    (hget : p.Settings.client.Get (c.url fm t p) = .error e) :
    (c.run fm t p).err = some e ∧ (c.run fm t p).events = [.get (c.url fm t p)] ∧
      (c.run fm t p).client = p := by
  rw [Call.run_of_get_error fm t p c e hget]
  simp

/-- C6 at a transport that is down, for the historical call. -/
theorem transport_error_propagated_witness :
    ((Call.historical sampleHistorical).run textFloat sampleTemplates
        (sampleClient (.error (.transport "dial tcp: timeout")))).err =
        some (.transport "dial tcp: timeout") ∧
      ((Call.historical sampleHistorical).run textFloat sampleTemplates
        (sampleClient (.error (.transport "dial tcp: timeout")))).events =
        [.get ((Call.historical sampleHistorical).url textFloat sampleTemplates
          (sampleClient (.error (.transport "dial tcp: timeout"))))] ∧
      ((Call.historical sampleHistorical).run textFloat sampleTemplates
        (sampleClient (.error (.transport "dial tcp: timeout")))).client =
        sampleClient (.error (.transport "dial tcp: timeout")) :=
  transport_error_propagated textFloat sampleTemplates _ (Call.historical sampleHistorical)
    (.transport "dial tcp: timeout") rfl

/-- C5. For every client and every call of the three: the call returns no error
exactly when the GET succeeded, the status is not 401 and decoding the body into
the client raised no error; with a status other than 401 the outcome (error, client,
events) does not depend on the status; and a body that holds no complete JSON value
makes the call return the decoder's error as its error value. -/
theorem success_iff_decode_succeeds {F : Type} (fm : Float64Ops F) (t : Templates)
    (p : Pollution F) (c : Call F) :
    ((c.run fm t p).err = none ↔
        ∃ r, p.Settings.client.Get (c.url fm t p) = .ok r ∧ r.StatusCode ≠ 401 ∧
          (Decode fm r.Body p).2 = none) ∧
      (∀ r, p.Settings.client.Get (c.url fm t p) = .ok r → r.StatusCode ≠ 401 →
        c.run fm t p = ⟨(Decode fm r.Body p).2, (Decode fm r.Body p).1,
          [.get (c.url fm t p), .decode, .closeBody]⟩) ∧
      (∀ r e, p.Settings.client.Get (c.url fm t p) = .ok r → r.StatusCode ≠ 401 →
        r.Body = .invalid e → (c.run fm t p).err = some e) := by
  refine ⟨?_, ?_, ?_⟩
  · cases hget : p.Settings.client.Get (c.url fm t p) with
    | error e =>
      rw [Call.run_of_get_error fm t p c e hget]
      simp
    | ok r =>
      by_cases hs : r.StatusCode = StatusUnauthorized
      · rw [Call.run_of_unauthorized fm t p c r hget hs]
        simp only [reduceCtorEq, Except.ok.injEq, false_iff, not_exists, not_and]
        intro r2 hr2 h401
        subst hr2
        exact absurd hs h401
      · rw [Call.run_of_other_status fm t p c r hget hs]
        constructor
        · intro h
          exact ⟨r, rfl, hs, h⟩
        · rintro ⟨r2, hr2, _, hdec⟩
          simp only [Except.ok.injEq] at hr2
          subst hr2
          exact hdec
  · intro r hget hs
    exact Call.run_of_other_status fm t p c r hget hs
  · intro r e hget hs hbody
    rw [Call.run_of_other_status fm t p c r hget hs, hbody]
    rfl

/-- C5 at status 404 with an empty body: the decoder's error is returned. -/
theorem success_iff_decode_succeeds_witness :
    ((Call.forecast sampleParams).run textFloat sampleTemplates
        (sampleClient (.ok ⟨404, .invalid (.syntaxError "EOF")⟩))).err =
      some (.syntaxError "EOF") :=
  (success_iff_decode_succeeds textFloat sampleTemplates
    (sampleClient (.ok ⟨404, .invalid (.syntaxError "EOF")⟩))
    (Call.forecast sampleParams)).2.2 ⟨404, .invalid (.syntaxError "EOF")⟩ (.syntaxError "EOF")
    rfl (by decide) rfl

/-! ## URL rendering -/

/-- A digit character reads back as its value. -/
theorem digitVal_digitChar (d : Nat) (hd : d < 10) : digitVal (digitChar d) = some d := by
  interval_cases d <;> decide

/-- A digit character is neither sign. -/
theorem digitChar_not_sign (d : Nat) (hd : d < 10) : digitChar d ≠ '+' ∧ digitChar d ≠ '-' := by
  interval_cases d <;> decide

/-- With at least one digit allowed, the digits are not empty and start with a
digit character. -/
theorem fmtDigits_head (fuel u : Nat) :
    ∃ d rest, d < 10 ∧ fmtDigits (fuel + 1) u = digitChar d :: rest := by
  induction fuel generalizing u with
  | zero =>
    by_cases h : u < 10
    · exact ⟨u, [], h, by simp [fmtDigits, h]⟩
    · exact ⟨u % 10, [], Nat.mod_lt _ (by norm_num), by simp [fmtDigits, h]⟩
  | succ fuel ih =>
    by_cases h : u < 10
    · exact ⟨u, [], h, by simp [fmtDigits, h]⟩
    · obtain ⟨d, rest, hd, hrest⟩ := ih (u / 10)
      refine ⟨d, rest ++ [digitChar (u % 10)], hd, ?_⟩
      rw [fmtDigits, if_neg h, hrest]
      rfl

/-- Reading the digits written for `u` gives `u`, when `u` has no more digits than
allowed. -/
theorem foldlM_fmtDigits (fuel u : Nat) (hu : u < 10 ^ fuel) :
    (fmtDigits fuel u).foldlM (fun acc c => (digitVal c).map (fun d => acc * 10 + d)) 0 =
      some u := by
  induction fuel generalizing u with
  | zero => simp at hu; subst hu; simp [fmtDigits]
  | succ fuel ih =>
    by_cases h : u < 10
    · simp [fmtDigits, h, digitVal_digitChar u h]
    · have hdiv : u / 10 < 10 ^ fuel := by
        apply Nat.div_lt_of_lt_mul
        rw [pow_succ] at hu
        omega
      rw [fmtDigits, if_neg h, List.foldlM_append, ih (u / 10) hdiv]
      simp [digitVal_digitChar (u % 10) (Nat.mod_lt _ (by norm_num))]
      omega

/-- The digits of a value below `10 ^ 20` parse back to the value. -/
theorem parseDigits_fmtDigits (u : Nat) (hu : u < 10 ^ 20) :
    parseDigits (fmtDigits 20 u) = some u := by
  obtain ⟨d, rest, _, hrest⟩ := fmtDigits_head 19 u
  have h := foldlM_fmtDigits 20 u hu
  rw [hrest] at h ⊢
  simpa [parseDigits] using h

/-- The `%d` text of an `int64` parses back to the value with `strconv.ParseInt`. -/
theorem ParseInt_FormatInt (n : Int) (hlo : -2 ^ 63 ≤ n) (hhi : n < 2 ^ 63) :
    ParseInt (FormatInt n) = some n := by
  have hu : n.natAbs < 10 ^ 20 := by omega
  have hp := parseDigits_fmtDigits n.natAbs hu
  by_cases hneg : n < 0
  · have hle : n.natAbs ≤ 2 ^ 63 := by omega
    have hval : -((n.natAbs : Nat) : Int) = n := by omega
    simp only [FormatInt, hneg, if_true, ParseInt, hp]
    show (if n.natAbs ≤ 2 ^ 63 then some (-((n.natAbs : Nat) : Int)) else none) = some n
    rw [if_pos hle, hval]
  · obtain ⟨d, rest, hd, hrest⟩ := fmtDigits_head 19 n.natAbs
    have hlt : n.natAbs < 2 ^ 63 := by omega
    have hval : ((n.natAbs : Nat) : Int) = n := by omega
    have hsign := digitChar_not_sign d hd
    rw [hrest] at hp
    simp only [FormatInt, hneg, if_false, ParseInt, hrest, hsign.1, hsign.2, hp]
    show (if n.natAbs < 2 ^ 63 then some ((n.natAbs : Nat) : Int) else none) = some n
    rw [if_pos hlt, hval]

/-- When every verb of the format fits its operand, `Sprintf` is the template with
its placeholders filled by the operands' plain texts. -/
theorem Sprintf_eq_fill (ps : List Piece) (args : List Arg)
    (h : verbs ps = args.map Arg.verb) : Sprintf ps args = fill ps (args.map Arg.text) := by
  induction ps generalizing args with
  | nil =>
    cases args with
    | nil => rfl
    | cons a rest => simp [verbs] at h
  | cons piece ps ih =>
    cases piece with
    | text t =>
      rw [Sprintf, fill, ih args (by simpa [verbs] using h)]
    | verb v =>
      cases args with
      | nil => simp [verbs] at h
      | cons a rest =>
        simp only [verbs, List.map_cons, List.cons.injEq] at h
        rw [Sprintf, List.map_cons, fill, ih rest h.2]
        cases a <;> cases v <;> simp_all [Arg.verb, formatArg, Arg.text]

/-- C7. For every client and every historical parameters whose `Start` and `End`
are `int64` values, and for a historical template whose placeholders are, in order,
three `%s` and two `%d`: whatever the GET returns, the call issues exactly one GET,
for the template filled in this order with the client's `Key`, the latitude text,
the longitude text, the base-10 text of `Start` and the base-10 text of `End`; and
the two integer texts parse back to `Start` and `End`. -/
theorem historical_url_verbatim {F : Type} (fm : Float64Ops F) (t : Templates) (p : Pollution F)
    (params : HistoricalPollutionParameters F)
    (ht : verbs t.historicalPollutionURL = [.s, .s, .s, .d, .d])
    (hStart : -2 ^ 63 ≤ params.Start ∧ params.Start < 2 ^ 63)
    (hEnd : -2 ^ 63 ≤ params.End ∧ params.End < 2 ^ 63) :
    getRequests (HistoricalPollutionByParams fm t p params).events =
        [fill t.historicalPollutionURL
          [p.Key, fm.format params.Location.Latitude, fm.format params.Location.Longitude,
            FormatInt params.Start, FormatInt params.End]] ∧
      ParseInt (FormatInt params.Start) = some params.Start ∧
      ParseInt (FormatInt params.End) = some params.End := by
  refine ⟨?_, ParseInt_FormatInt _ hStart.1 hStart.2, ParseInt_FormatInt _ hEnd.1 hEnd.2⟩
  have hurl := Sprintf_eq_fill t.historicalPollutionURL
    [.string p.Key, .string (fm.format params.Location.Latitude),
      .string (fm.format params.Location.Longitude), .int64 params.Start, .int64 params.End]
    (by simp [ht, Arg.verb])
  simp only [List.map_cons, List.map_nil, Arg.text] at hurl
  simp only [HistoricalPollutionByParams, hurl]
  cases p.Settings.client.Get _ with
  | error e => simp [getRequests]
  | ok r =>
    by_cases hs : r.StatusCode = StatusUnauthorized
    · simp [hs, getRequests]
    · simp only [hs, if_false]
      cases (Decode fm r.Body p).2 <;> simp [getRequests]

/-- C7 at the input of `TestHistoricalPollutionByParams`: start 1606223802 and end
1606482999 appear verbatim in the one URL requested. -/
theorem historical_url_verbatim_witness :
    getRequests (HistoricalPollutionByParams textFloat sampleTemplates
        (sampleClient (.error (.transport "down"))) sampleHistorical).events =
        ["https://api.openweathermap.org/data/2.5/air_pollution/history?appid=abc&lat=0&lon=10&start=1606223802&end=1606482999"] ∧
      ParseInt "1606223802" = some 1606223802 ∧
      ParseInt "1606482999" = some 1606482999 :=
  historical_url_verbatim textFloat sampleTemplates (sampleClient (.error (.transport "down")))
    sampleHistorical rfl (by decide) (by decide)

/-! ## The decoder on the members of an object -/

/-- A field found for a member name is a field of the struct whose name matches. -/
theorem findField_some {S : Type} {fields : List (Field S)} {key : String} {f : Field S}
    (h : findField fields key = some f) : f ∈ fields ∧ nameMatch key f.name = true := by
  unfold findField at h
  split at h
  · rename_i g hg
    simp only [Option.some.injEq] at h
    subst h
    refine ⟨List.mem_of_find?_eq_some hg, ?_⟩
    have hname := List.find?_some hg
    simp only [beq_iff_eq] at hname
    simp [nameMatch, hname]
  · exact ⟨List.mem_of_find?_eq_some h, by simpa [nameMatch] using List.find?_some h⟩

/-- When no field is found for a member name, no field's name matches it. -/
theorem findField_none {S : Type} {fields : List (Field S)} {key : String}
    (h : findField fields key = none) : ∀ f ∈ fields, nameMatch key f.name = false := by
  unfold findField at h
  split at h
  · simp at h
  · intro f hf
    have := List.find?_eq_none.mp h f hf
    simpa [nameMatch] using this

/-- Matching is by equality of folded names. -/
theorem nameMatch_iff (key name : String) :
    nameMatch key name = true ↔ foldName name = foldName key := by
  simp [nameMatch]

/-- Decoding the members one after the other. -/
theorem decodeMembers_cons {S : Type} (fields : List (Field S)) (m : String × JSON)
    (ms : List (String × JSON)) (st : S × Option GoError) :
    decodeMembers fields (m :: ms) st =
      decodeMembers fields ms (decodeMembers fields [m] st) := by
  simp [decodeMembers]

/-- Decoding a concatenation of members. -/
theorem decodeMembers_append {S : Type} (fields : List (Field S))
    (ms₁ ms₂ : List (String × JSON)) (st : S × Option GoError) :
    decodeMembers fields (ms₁ ++ ms₂) st =
      decodeMembers fields ms₂ (decodeMembers fields ms₁ st) := by
  simp [decodeMembers]

/-- The values of the members named `name`, member by member. -/
theorem memberValues_cons (m : String × JSON) (ms : List (String × JSON)) (name : String) :
    memberValues (m :: ms) name =
      if nameMatch m.1 name = true then m.2 :: memberValues ms name else memberValues ms name := by
  by_cases hm : nameMatch m.1 name = true <;> simp [memberValues, List.filter_cons, hm]

/-- One member: a part `π` of the struct that only the fields named like `name`
write, each of them by `dec`, is written by `dec` when the member is named `name`
and is left as it is otherwise. -/
theorem decodeMembers_single_proj {S α : Type} (fields : List (Field S)) (π : S → α)
    (name : String) (dec : JSON → α → α)
    (hsame : ∀ f ∈ fields, foldName f.name = foldName name →
      ∀ v s, π (f.store v s).1 = dec v (π s))
    (hother : ∀ f ∈ fields, foldName f.name ≠ foldName name →
      ∀ v s, π (f.store v s).1 = π s)
    (hex : ∃ f ∈ fields, foldName f.name = foldName name)
    (m : String × JSON) (st : S × Option GoError) :
    π (decodeMembers fields [m] st).1 =
      if nameMatch m.1 name = true then dec m.2 (π st.1) else π st.1 := by
  simp only [decodeMembers, List.foldl_cons, List.foldl_nil]
  cases hf : findField fields m.1 with
  | none =>
    have hnone := findField_none hf
    obtain ⟨g, hg, hgname⟩ := hex
    have hg2 := hnone g hg
    by_cases hm : nameMatch m.1 name = true
    · have hfold := (nameMatch_iff _ _).mp hm
      have : nameMatch m.1 g.name = true := (nameMatch_iff _ _).mpr (hgname.trans hfold)
      simp [this] at hg2
    · simp [hm]
  | some f =>
    obtain ⟨hmem, hmatch⟩ := findField_some hf
    have hfold := (nameMatch_iff _ _).mp hmatch
    by_cases hm : nameMatch m.1 name = true
    · have hfold2 := (nameMatch_iff _ _).mp hm
      simp only [hm, if_true]
      exact hsame f hmem (hfold.trans hfold2.symm) m.2 st.1
    · simp only [hm]
      have hne : foldName f.name ≠ foldName name := by
        intro heq
        exact hm ((nameMatch_iff _ _).mpr (heq.symm.trans hfold))
      exact hother f hmem hne m.2 st.1

/-- A part `π` of the struct that only the fields named like `name` write, each of
them by `dec`, ends as the successive `dec` of the values of the members named
`name`, in order, whatever the other members are. -/
theorem decodeMembers_proj {S α : Type} (fields : List (Field S)) (π : S → α) (name : String)
    (dec : JSON → α → α)
    (hsame : ∀ f ∈ fields, foldName f.name = foldName name →
      ∀ v s, π (f.store v s).1 = dec v (π s))
    (hother : ∀ f ∈ fields, foldName f.name ≠ foldName name →
      ∀ v s, π (f.store v s).1 = π s)
    (hex : ∃ f ∈ fields, foldName f.name = foldName name)
    (members : List (String × JSON)) (st : S × Option GoError) :
    π (decodeMembers fields members st).1 =
      (memberValues members name).foldl (fun a v => dec v a) (π st.1) := by
  induction members generalizing st with
  | nil => rfl
  | cons m ms ih =>
    rw [decodeMembers_cons, ih,
      decodeMembers_single_proj fields π name dec hsame hother hex m st, memberValues_cons]
    by_cases hm : nameMatch m.1 name = true <;> simp [hm]

/-- An error saved before the members are decoded is the error after them. -/
theorem decodeMembers_err_of_some {S : Type} (fields : List (Field S))
    (members : List (String × JSON)) (s : S) (e : GoError) :
    (decodeMembers fields members (s, some e)).2 = some e := by
  induction members generalizing s with
  | nil => rfl
  | cons m ms ih =>
    rw [decodeMembers_cons]
    simp only [decodeMembers, List.foldl_cons, List.foldl_nil]
    cases findField fields m.1 with
    | none => exact ih s
    | some f => exact ih _

/-- When no member raises an error, whatever the struct it is stored into, none is
saved. -/
theorem decodeMembers_err_none {S : Type} (fields : List (Field S))
    (members : List (String × JSON))
    (hok : ∀ m ∈ members, ∀ f, findField fields m.1 = some f → ∀ s, (f.store m.2 s).2 = none)
    (s : S) : (decodeMembers fields members (s, none)).2 = none := by
  induction members generalizing s with
  | nil => rfl
  | cons m ms ih =>
    rw [decodeMembers_cons]
    have hms : ∀ m2 ∈ ms, ∀ f, findField fields m2.1 = some f → ∀ s, (f.store m2.2 s).2 = none :=
      fun m2 hm2 => hok m2 (List.mem_cons_of_mem _ hm2)
    simp only [decodeMembers, List.foldl_cons, List.foldl_nil]
    cases hf : findField fields m.1 with
    | none => exact ih hms s
    | some f =>
      simp only [hok m (List.mem_cons_self _ _) f hf s, saveError]
      exact ih hms _

/-- When the members before `m` raise no error and `m` raises `e`, the error saved
after all members is `e`. -/
theorem decodeMembers_err_first {S : Type} (fields : List (Field S))
    (pre post : List (String × JSON)) (m : String × JSON) (f : Field S) (e : GoError)
    (hpre : ∀ m2 ∈ pre, ∀ g, findField fields m2.1 = some g → ∀ s, (g.store m2.2 s).2 = none)
    (hf : findField fields m.1 = some f) (he : ∀ s, (f.store m.2 s).2 = some e)
    (s : S) : (decodeMembers fields (pre ++ m :: post) (s, none)).2 = some e := by
  rw [decodeMembers_append, decodeMembers_cons]
  have h1 := decodeMembers_err_none fields pre hpre s
  have h2 : (decodeMembers fields [m] (decodeMembers fields pre (s, none))).2 = some e := by
    generalize decodeMembers fields pre (s, none) = st1 at h1
    obtain ⟨s1, e1⟩ := st1
    simp only at h1
    subst h1
    simp only [decodeMembers, List.foldl_cons, List.foldl_nil, hf, he, saveError]
  generalize decodeMembers fields [m] (decodeMembers fields pre (s, none)) = st at h2
  obtain ⟨s2, e2⟩ := st
  simp only at h2
  subst h2
  exact decodeMembers_err_of_some fields post s2 e

/-! ## Folded field names -/

/-- Folded form of the name `dt`. -/
theorem foldName_dt : foldName "dt" = "DT" := by decide

/-- Folded form of the name `coord`. -/
theorem foldName_coord : foldName "coord" = "COORD" := by decide

/-- Folded form of the name `list`. -/
theorem foldName_list : foldName "list" = "LIST" := by decide

/-- Folded form of the name `Key`. -/
theorem foldName_Key : foldName "Key" = "KEY" := by decide

/-- Folded form of the name `main`. -/
theorem foldName_main : foldName "main" = "MAIN" := by decide

/-- Folded form of the name `components`. -/
theorem foldName_components : foldName "components" = "COMPONENTS" := by decide

/-- Folded form of the name `aqi`. -/
theorem foldName_aqi : foldName "aqi" = "AQI" := by decide

/-- Folded form of the name `co`. -/
theorem foldName_co : foldName "co" = "CO" := by decide

/-- Folded form of the name `no`. -/
theorem foldName_no : foldName "no" = "NO" := by decide

/-- Folded form of the name `no2`. -/
theorem foldName_no2 : foldName "no2" = "NO2" := by decide

/-- Folded form of the name `o3`. -/
theorem foldName_o3 : foldName "o3" = "O3" := by decide

/-- Folded form of the name `so2`. -/
theorem foldName_so2 : foldName "so2" = "SO2" := by decide

/-- Folded form of the name `pm2_5`. -/
theorem foldName_pm2_5 : foldName "pm2_5" = "PM2_5" := by decide

/-- Folded form of the name `pm10`. -/
theorem foldName_pm10 : foldName "pm10" = "PM10" := by decide

/-- Folded form of the name `nh3`. -/
theorem foldName_nh3 : foldName "nh3" = "NH3" := by decide

/-- Folded form of the name `lon`. -/
theorem foldName_lon : foldName "lon" = "LON" := by decide

/-- Folded form of the name `lat`. -/
theorem foldName_lat : foldName "lat" = "LAT" := by decide

/-! ## Float fields -/

/-- A member named `name` of an object that has exactly one such member, a number
`ParseFloat` accepts, is that number. -/
theorem HasFloat.value_of_mem {F : Type} {fm : Float64Ops F} {members : List (String × JSON)}
    {name : String} {x : F} (h : HasFloat fm members name x) (m : String × JSON)
    (hm : m ∈ members) (hmatch : nameMatch m.1 name = true) :
    m.2 = .number (Classical.choose h) ∧ fm.parse (Classical.choose h) = some x := by
  have hspec := Classical.choose_spec h
  have : m.2 ∈ memberValues members name := by
    simp only [memberValues, List.mem_map, List.mem_filter]
    exact ⟨m, ⟨hm, hmatch⟩, rfl⟩
  rw [hspec.1] at this
  simp only [List.mem_singleton] at this
  exact ⟨this, hspec.2⟩

/-- Storing a number `ParseFloat` accepts gives its value and no error. -/
theorem storeFloat64_number {F : Type} (fm : Float64Ops F) (lit : String) (x cur : F)
    (h : fm.parse lit = some x) : storeFloat64 fm (.number lit) cur = (x, none) := by
  simp [storeFloat64, h]

/-- A float part of a struct that only the fields named like `name` write ends as
the value of the one member named `name`. -/
theorem decodeMembers_float {S F : Type} (fm : Float64Ops F) (fields : List (Field S))
    (π : S → F) (name : String)
    (hsame : ∀ f ∈ fields, foldName f.name = foldName name →
      ∀ v s, π (f.store v s).1 = (storeFloat64 fm v (π s)).1)
    (hother : ∀ f ∈ fields, foldName f.name ≠ foldName name →
      ∀ v s, π (f.store v s).1 = π s)
    (hex : ∃ f ∈ fields, foldName f.name = foldName name)
    (members : List (String × JSON)) (x : F) (h : HasFloat fm members name x)
    (st : S × Option GoError) :
    π (decodeMembers fields members st).1 = x := by
  obtain ⟨lit, hvals, hparse⟩ := h
  rw [decodeMembers_proj fields π name (fun v a => (storeFloat64 fm v a).1) hsame hother hex,
    hvals]
  simp [storeFloat64_number fm lit x _ hparse]

/-- The `Main` object of an entry of the expected shape decodes to its `aqi`,
without error, whatever was stored before. -/
theorem storeStruct_main {F : Type} (fm : Float64Ops F) (mm : List (String × JSON)) (x : F)
    (h : HasFloat fm mm "aqi" x) (s : MainData F) :
    storeStruct "Main" (mainFields fm) (.object mm) s = (⟨x⟩, none) := by
  simp only [storeStruct]
  apply Prod.ext
  · apply MainData.ext
    exact decodeMembers_float fm (mainFields fm) MainData.Aqi "aqi"
      (by simp [mainFields]) (by simp [mainFields]) (by simp [mainFields]) mm x h _
  · apply decodeMembers_err_none
    intro m hm f hf q
    obtain ⟨hmem, hmatch⟩ := findField_some hf
    simp only [mainFields, List.mem_singleton] at hmem
    subst hmem
    obtain ⟨hv, hp⟩ := h.value_of_mem m hm hmatch
    simp [hv, storeFloat64_number fm _ x _ hp]

/-- The `Components` object of an entry of the expected shape decodes to its eight
values, without error, whatever was stored before. -/
theorem storeStruct_components {F : Type} (fm : Float64Ops F) (cm : List (String × JSON))
    (c : ComponentsData F)
    (hCo : HasFloat fm cm "co" c.Co)
    (hNo : HasFloat fm cm "no" c.No)
    (hNo2 : HasFloat fm cm "no2" c.No2)
    (hO3 : HasFloat fm cm "o3" c.O3)
    (hSo2 : HasFloat fm cm "so2" c.So2)
    (hPm25 : HasFloat fm cm "pm2_5" c.Pm25)
    (hPm10 : HasFloat fm cm "pm10" c.Pm10)
    (hNh3 : HasFloat fm cm "nh3" c.Nh3)
    (s : ComponentsData F) :
    storeStruct "Components" (componentsFields fm) (.object cm) s = (c, none) := by
  simp only [storeStruct]
  apply Prod.ext
  · apply ComponentsData.ext
    · exact decodeMembers_float fm (componentsFields fm) ComponentsData.Co "co"
        (by simp [componentsFields, foldName_co, foldName_no, foldName_no2, foldName_o3, foldName_so2, foldName_pm2_5, foldName_pm10, foldName_nh3])
        (by simp [componentsFields, foldName_co, foldName_no, foldName_no2, foldName_o3, foldName_so2, foldName_pm2_5, foldName_pm10, foldName_nh3])
        (by simp [componentsFields]) cm c.Co hCo _
    · exact decodeMembers_float fm (componentsFields fm) ComponentsData.No "no"
        (by simp [componentsFields, foldName_co, foldName_no, foldName_no2, foldName_o3, foldName_so2, foldName_pm2_5, foldName_pm10, foldName_nh3])
        (by simp [componentsFields, foldName_co, foldName_no, foldName_no2, foldName_o3, foldName_so2, foldName_pm2_5, foldName_pm10, foldName_nh3])
        (by simp [componentsFields]) cm c.No hNo _
    · exact decodeMembers_float fm (componentsFields fm) ComponentsData.No2 "no2"
        (by simp [componentsFields, foldName_co, foldName_no, foldName_no2, foldName_o3, foldName_so2, foldName_pm2_5, foldName_pm10, foldName_nh3])
        (by simp [componentsFields, foldName_co, foldName_no, foldName_no2, foldName_o3, foldName_so2, foldName_pm2_5, foldName_pm10, foldName_nh3])
        (by simp [componentsFields]) cm c.No2 hNo2 _
    · exact decodeMembers_float fm (componentsFields fm) ComponentsData.O3 "o3"
        (by simp [componentsFields, foldName_co, foldName_no, foldName_no2, foldName_o3, foldName_so2, foldName_pm2_5, foldName_pm10, foldName_nh3])
        (by simp [componentsFields, foldName_co, foldName_no, foldName_no2, foldName_o3, foldName_so2, foldName_pm2_5, foldName_pm10, foldName_nh3])
        (by simp [componentsFields]) cm c.O3 hO3 _
    · exact decodeMembers_float fm (componentsFields fm) ComponentsData.So2 "so2"
        (by simp [componentsFields, foldName_co, foldName_no, foldName_no2, foldName_o3, foldName_so2, foldName_pm2_5, foldName_pm10, foldName_nh3])
        (by simp [componentsFields, foldName_co, foldName_no, foldName_no2, foldName_o3, foldName_so2, foldName_pm2_5, foldName_pm10, foldName_nh3])
        (by simp [componentsFields]) cm c.So2 hSo2 _
    · exact decodeMembers_float fm (componentsFields fm) ComponentsData.Pm25 "pm2_5"
        (by simp [componentsFields, foldName_co, foldName_no, foldName_no2, foldName_o3, foldName_so2, foldName_pm2_5, foldName_pm10, foldName_nh3])
        (by simp [componentsFields, foldName_co, foldName_no, foldName_no2, foldName_o3, foldName_so2, foldName_pm2_5, foldName_pm10, foldName_nh3])
        (by simp [componentsFields]) cm c.Pm25 hPm25 _
    · exact decodeMembers_float fm (componentsFields fm) ComponentsData.Pm10 "pm10"
        (by simp [componentsFields, foldName_co, foldName_no, foldName_no2, foldName_o3, foldName_so2, foldName_pm2_5, foldName_pm10, foldName_nh3])
        (by simp [componentsFields, foldName_co, foldName_no, foldName_no2, foldName_o3, foldName_so2, foldName_pm2_5, foldName_pm10, foldName_nh3])
        (by simp [componentsFields]) cm c.Pm10 hPm10 _
    · exact decodeMembers_float fm (componentsFields fm) ComponentsData.Nh3 "nh3"
        (by simp [componentsFields, foldName_co, foldName_no, foldName_no2, foldName_o3, foldName_so2, foldName_pm2_5, foldName_pm10, foldName_nh3])
        (by simp [componentsFields, foldName_co, foldName_no, foldName_no2, foldName_o3, foldName_so2, foldName_pm2_5, foldName_pm10, foldName_nh3])
        (by simp [componentsFields]) cm c.Nh3 hNh3 _
  · apply decodeMembers_err_none
    intro m hm f hf q
    obtain ⟨hmem, hmatch⟩ := findField_some hf
    simp only [componentsFields, List.mem_cons, List.mem_singleton, List.not_mem_nil,
      or_false] at hmem
    rcases hmem with rfl | rfl | rfl | rfl | rfl | rfl | rfl | rfl
    · obtain ⟨hv, hp⟩ := hCo.value_of_mem m hm hmatch
      simp [hv, storeFloat64_number fm _ _ _ hp]
    · obtain ⟨hv, hp⟩ := hNo.value_of_mem m hm hmatch
      simp [hv, storeFloat64_number fm _ _ _ hp]
    · obtain ⟨hv, hp⟩ := hNo2.value_of_mem m hm hmatch
      simp [hv, storeFloat64_number fm _ _ _ hp]
    · obtain ⟨hv, hp⟩ := hO3.value_of_mem m hm hmatch
      simp [hv, storeFloat64_number fm _ _ _ hp]
    · obtain ⟨hv, hp⟩ := hSo2.value_of_mem m hm hmatch
      simp [hv, storeFloat64_number fm _ _ _ hp]
    · obtain ⟨hv, hp⟩ := hPm25.value_of_mem m hm hmatch
      simp [hv, storeFloat64_number fm _ _ _ hp]
    · obtain ⟨hv, hp⟩ := hPm10.value_of_mem m hm hmatch
      simp [hv, storeFloat64_number fm _ _ _ hp]
    · obtain ⟨hv, hp⟩ := hNh3.value_of_mem m hm hmatch
      simp [hv, storeFloat64_number fm _ _ _ hp]

/-! ## Entries of the list -/

/-- The value of a member is among the values of the members of its name. -/
theorem mem_memberValues {members : List (String × JSON)} {name : String} (m : String × JSON)
    (hm : m ∈ members) (hmatch : nameMatch m.1 name = true) : m.2 ∈ memberValues members name := by
  simp only [memberValues, List.mem_map, List.mem_filter]
  exact ⟨m, ⟨hm, hmatch⟩, rfl⟩

/-- Storing an integer literal `ParseInt` accepts gives its value and no error. -/
theorem storeInt_number (lit : String) (n cur : Int) (h : ParseInt lit = some n) :
    storeInt (.number lit) cur = (n, none) := by
  simp [storeInt, h]

/-- An element of the expected shape decodes to the entry it carries, without
error, whatever the element of the backing array it is decoded into. -/
theorem storePollutionData_of_shape {F : Type} (fm : Float64Ops F) (v : JSON)
    (e : PollutionData F) (h : EntryShape fm v e) (s : PollutionData F) :
    storePollutionData fm v s = (e, none) := by
  obtain ⟨ms, mm, cm, hv, hdt, hmain, haqi, hcomp, hCo, hNo, hNo2, hO3, hSo2, hPm25, hPm10,
    hNh3⟩ := h
  subst hv
  have hM : ∀ q, storeStruct "Main" (mainFields fm) (.object mm) q = (e.Main, none) :=
    fun q => storeStruct_main fm mm e.Main.Aqi haqi q
  have hC : ∀ q, storeStruct "Components" (componentsFields fm) (.object cm) q =
      (e.Components, none) :=
    fun q => storeStruct_components fm cm e.Components hCo hNo hNo2 hO3 hSo2 hPm25 hPm10 hNh3 q
  obtain ⟨lit, hdtv, hparse⟩ := hdt
  simp only [storePollutionData, storeStruct]
  apply Prod.ext
  · apply PollutionData.ext
    · rw [decodeMembers_proj (pollutionDataFields fm) PollutionData.Dt "dt"
        (fun v a => (storeInt v a).1)
        (by simp [pollutionDataFields, foldName_dt, foldName_main, foldName_components])
        (by simp [pollutionDataFields, foldName_dt, foldName_main, foldName_components])
        (by simp [pollutionDataFields]), hdtv]
      simp [storeInt_number lit e.Dt _ hparse]
    · rw [decodeMembers_proj (pollutionDataFields fm) PollutionData.Main "main"
        (fun v a => (storeStruct "Main" (mainFields fm) v a).1)
        (by simp [pollutionDataFields, foldName_dt, foldName_main, foldName_components])
        (by simp [pollutionDataFields, foldName_dt, foldName_main, foldName_components])
        (by simp [pollutionDataFields]), hmain]
      simp [hM]
    · rw [decodeMembers_proj (pollutionDataFields fm) PollutionData.Components "components"
        (fun v a => (storeStruct "Components" (componentsFields fm) v a).1)
        (by simp [pollutionDataFields, foldName_dt, foldName_main, foldName_components])
        (by simp [pollutionDataFields, foldName_dt, foldName_main, foldName_components])
        (by simp [pollutionDataFields]), hcomp]
      simp [hC]
  · apply decodeMembers_err_none
    intro m hm f hf q
    obtain ⟨hmem, hmatch⟩ := findField_some hf
    simp only [pollutionDataFields, List.mem_cons, List.mem_singleton, List.not_mem_nil,
      or_false] at hmem
    rcases hmem with rfl | rfl | rfl
    · have := mem_memberValues m hm hmatch
      rw [hdtv, List.mem_singleton] at this
      simp [this, storeInt_number lit e.Dt _ hparse]
    · have := mem_memberValues m hm hmatch
      rw [hmain, List.mem_singleton] at this
      simp [this, hM]
    · have := mem_memberValues m hm hmatch
      rw [hcomp, List.mem_singleton] at this
      simp [this, hC]

/-- The loop of the array decoder on elements that each decode to a value and no
error, whatever they are decoded into: elements `i` onwards of the backing array
are replaced by the decoded values, in order. -/
theorem decodeElems_of_forall₂ {α : Type} (zero : α) (dec : JSON → α → α × Option GoError)
    (R : JSON → α → Prop) (hdec : ∀ v e, R v e → ∀ s, dec v s = (e, none))
    (elems : List JSON) (es : List α) (h : List.Forall₂ R elems es) (i : Nat) (store : List α)
    (hi : i ≤ store.length) :
    decodeElems zero dec elems i store =
      (store.take i ++ es ++ store.drop (i + es.length), none) := by
  induction h generalizing i store with
  | nil => simp [decodeElems]
  | @cons v e vs es hve _ ih =>
    simp only [decodeElems, hdec v e hve, saveError]
    by_cases hlt : i < store.length
    · simp only [hlt, if_true]
      rw [ih (i + 1) (store.set i e) (by simp; omega)]
      obtain ⟨l₁, l₂, hstore, hlen, hset⟩ := @List.exists_of_set _ i e store hlt
      rw [hset]
      generalize store[i] = x at hstore
      subst hstore
      subst hlen
      have h1 : List.take (l₁.length + 1) (l₁ ++ e :: l₂) = l₁ ++ [e] := by
        rw [List.take_append]
        simp
      have h2 : List.drop (l₁.length + 1 + es.length) (l₁ ++ e :: l₂) = List.drop es.length l₂ := by
        rw [Nat.add_assoc, List.drop_append]
        simp [Nat.add_comm 1 es.length]
      have h3 : List.take l₁.length (l₁ ++ x :: l₂) = l₁ := List.take_left _ _
      have h4 : List.drop (l₁.length + (e :: es).length) (l₁ ++ x :: l₂) =
          List.drop es.length l₂ := by
        rw [List.drop_append]
        simp
      rw [h1, h2, h3, h4]
      simp
    · have hieq : i = store.length := by omega
      subst hieq
      simp only [hlt, if_false]
      rw [ih (store.length + 1) (store ++ [e]) (by simp)]
      have h1 : List.take (store.length + 1) (store ++ [e]) = store ++ [e] :=
        List.take_of_length_le (by simp)
      have h2 : List.drop (store.length + 1 + es.length) (store ++ [e]) = [] :=
        List.drop_of_length_le (by simp)
      have h3 : List.drop (store.length + (e :: es).length) store = [] :=
        List.drop_of_length_le (by omega)
      rw [h1, h2, h3]
      simp

/-! ## The list and the whole object -/

/-- An array whose elements have the shape of entries is stored as exactly those
entries, in order, without error, whatever the slice held before. -/
theorem storeSlice_of_shape {F : Type} (fm : Float64Ops F) (elems : List JSON)
    (es : List (PollutionData F)) (h : List.Forall₂ (EntryShape fm) elems es)
    (sl : GoSlice (PollutionData F)) :
    (storeSlice "[]PollutionData" (PollutionData.zero fm) (storePollutionData fm)
        (.array elems) sl).1.elems = es ∧
      (storeSlice "[]PollutionData" (PollutionData.zero fm) (storePollutionData fm)
        (.array elems) sl).2 = none := by
  cases h with
  | nil => simp [storeSlice, GoSlice.elems]
  | @cons v e vs es hve hrest =>
    have hloop := decodeElems_of_forall₂ (PollutionData.zero fm) (storePollutionData fm)
      (EntryShape fm) (fun v e hv s => storePollutionData_of_shape fm v e hv s)
      (v :: vs) (e :: es) (List.Forall₂.cons hve hrest) 0 sl.store (Nat.zero_le _)
    have hlen : (v :: vs).length = (e :: es).length :=
      List.Forall₂.length_eq (List.Forall₂.cons hve hrest)
    simp only [storeSlice, hloop, GoSlice.elems, hlen]
    simp

/-- A `coord` of the expected shape is stored without error. -/
theorem storeStruct_coord_err {F : Type} (fm : Float64Ops F) (v : JSON) (h : CoordShape fm v)
    (s : Coordinates F) : (storeStruct "Coordinates" (coordinatesFields fm) v s).2 = none := by
  obtain ⟨cm, hv, hcm⟩ := h
  subst hv
  simp only [storeStruct]
  apply decodeMembers_err_none
  intro m hm f hf q
  obtain ⟨hmem, hmatch⟩ := findField_some hf
  simp only [coordinatesFields, List.mem_cons, List.mem_singleton, List.not_mem_nil,
    or_false] at hmem
  rcases hmem with rfl | rfl
  · obtain ⟨lit, x, hlit, hx⟩ := hcm m hm (Or.inr hmatch)
    simp [hlit, storeFloat64_number fm lit x _ hx]
  · obtain ⟨lit, x, hlit, hx⟩ := hcm m hm (Or.inl hmatch)
    simp [hlit, storeFloat64_number fm lit x _ hx]

/-- No member of an object of the expected shape raises an error. -/
theorem MembersShape.no_error {F : Type} {fm : Float64Ops F} {members : List (String × JSON)}
    {es : List (PollutionData F)} (h : MembersShape fm members es) :
    ∀ m ∈ members, ∀ f, findField (pollutionFields fm) m.1 = some f →
      ∀ q, (f.store m.2 q).2 = none := by
  obtain ⟨⟨elems, hlist, hentries⟩, hdt, hcoord, hkey⟩ := h
  intro m hm f hf q
  obtain ⟨hmem, hmatch⟩ := findField_some hf
  simp only [pollutionFields, List.mem_cons, List.mem_singleton, List.not_mem_nil,
    or_false] at hmem
  rcases hmem with rfl | rfl | rfl | rfl
  · obtain ⟨x, hx⟩ := hdt m hm hmatch
    simp [hx, storeString]
  · exact storeStruct_coord_err fm m.2 (hcoord m hm hmatch) _
  · have := mem_memberValues m hm hmatch
    rw [hlist, List.mem_singleton] at this
    simp only [this]
    exact (storeSlice_of_shape fm elems es hentries _).2
  · have := hkey m hm
    simp only at hmatch
    rw [hmatch] at this
    exact absurd this (by decide)

/-- The `List` of the client after decoding an object is the successive store of
the values of the members named `list`. -/
theorem decodeMembers_List {F : Type} (fm : Float64Ops F) (members : List (String × JSON))
    (st : Pollution F × Option GoError) :
    (decodeMembers (pollutionFields fm) members st).1.List =
      (memberValues members "list").foldl
        (fun a v => (storeSlice "[]PollutionData" (PollutionData.zero fm)
          (storePollutionData fm) v a).1) st.1.List :=
  decodeMembers_proj (pollutionFields fm) Pollution.List "list" _
    (by simp [pollutionFields, foldName_dt, foldName_coord, foldName_list, foldName_Key])
    (by simp [pollutionFields, foldName_dt, foldName_coord, foldName_list, foldName_Key])
    (by simp [pollutionFields]) members st

/-- The `Dt` of the client after decoding an object is the successive store of
the values of the members named `dt`. -/
theorem decodeMembers_Dt {F : Type} (fm : Float64Ops F) (members : List (String × JSON))
    (st : Pollution F × Option GoError) :
    (decodeMembers (pollutionFields fm) members st).1.Dt =
      (memberValues members "dt").foldl (fun a v => (storeString v a).1) st.1.Dt :=
  decodeMembers_proj (pollutionFields fm) Pollution.Dt "dt" _
    (by simp [pollutionFields, foldName_dt, foldName_coord, foldName_list, foldName_Key])
    (by simp [pollutionFields, foldName_dt, foldName_coord, foldName_list, foldName_Key])
    (by simp [pollutionFields]) members st

/-- The `Location` of the client after decoding an object is the successive store
of the values of the members named `coord`. -/
theorem decodeMembers_Location {F : Type} (fm : Float64Ops F) (members : List (String × JSON))
    (st : Pollution F × Option GoError) :
    (decodeMembers (pollutionFields fm) members st).1.Location =
      (memberValues members "coord").foldl
        (fun a v => (storeStruct "Coordinates" (coordinatesFields fm) v a).1) st.1.Location :=
  decodeMembers_proj (pollutionFields fm) Pollution.Location "coord" _
    (by simp [pollutionFields, foldName_dt, foldName_coord, foldName_list, foldName_Key])
    (by simp [pollutionFields, foldName_dt, foldName_coord, foldName_list, foldName_Key])
    (by simp [pollutionFields]) members st

/-- The `Key` of the client after decoding an object is the successive store of
the values of the members named `Key`. -/
theorem decodeMembers_Key {F : Type} (fm : Float64Ops F) (members : List (String × JSON))
    (st : Pollution F × Option GoError) :
    (decodeMembers (pollutionFields fm) members st).1.Key =
      (memberValues members "Key").foldl (fun a v => (storeString v a).1) st.1.Key :=
  decodeMembers_proj (pollutionFields fm) Pollution.Key "Key" _
    (by simp [pollutionFields, foldName_dt, foldName_coord, foldName_list, foldName_Key])
    (by simp [pollutionFields, foldName_dt, foldName_coord, foldName_list, foldName_Key])
    (by simp [pollutionFields]) members st

/-- Decoding a body of the expected shape into any client raises no error and
leaves exactly the entries of the body in the client's `List`, in order. -/
theorem Decode_of_shape {F : Type} (fm : Float64Ops F) (body : Body)
    (es : List (PollutionData F)) (h : BodyShape fm body es) (p : Pollution F) :
    (Decode fm body p).2 = none ∧ (Decode fm body p).1.List.elems = es := by
  obtain ⟨members, hbody, hshape⟩ := h
  subst hbody
  simp only [Decode, storeStruct]
  refine ⟨decodeMembers_err_none _ _ hshape.no_error p, ?_⟩
  obtain ⟨⟨elems, hlist, hentries⟩, _⟩ := hshape
  rw [decodeMembers_List, hlist]
  exact (storeSlice_of_shape fm elems es hentries _).1

/-- C4, counterexample. A response with status 200 whose body is the API's sample
object (a `coord` and a `list` array of one complete entry) preceded by a numeric
top-level `dt`, a body of the shape the spec expects: `PollutionByParams` returns
the decoder's `UnmarshalTypeError` (number into Go string) instead of no error,
although the entry of the array has been stored in `List`. -/
theorem complete_list_with_numeric_dt_returns_error :
    (PollutionByParams textFloat sampleTemplates
        (sampleClient (.ok ⟨200, .value (.object
          (("dt", .number "1606223802") :: sampleMembers))⟩)) sampleParams).err =
        some (.unmarshalType "number" "string") ∧
      (PollutionByParams textFloat sampleTemplates
        (sampleClient (.ok ⟨200, .value (.object
          (("dt", .number "1606223802") :: sampleMembers))⟩)) sampleParams).client.List.elems =
        [sampleEntry] := by
  decide

/-- C4, amended. For every client and every response with a status other than 401
whose body is a JSON object of the expected shape carrying the entries `es` (a
`list` array whose `i`-th element has one `dt`, one `main.aqi` and one of each of
the eight components, with the values of `es[i]`), whose top-level `dt`, when
present, is a JSON string, and which has no member named `Key`: `PollutionByParams`
returns no error and the client's `List` afterwards is exactly `es`: as many
entries as the array has elements, in the same order, each with the values of its
element. -/
theorem pollution_list_decoded_in_order {F : Type} (fm : Float64Ops F) (t : Templates)
    (p : Pollution F) (params : PollutionParameters F) (r : Response)
    (es : List (PollutionData F))
    (hget : p.Settings.client.Get ((Call.current params).url fm t p) = .ok r)
    (hs : r.StatusCode ≠ 401)
    (hshape : BodyShape fm r.Body es) :
    (PollutionByParams fm t p params).err = none ∧
      (PollutionByParams fm t p params).client.List.elems = es := by
  have hrun := Call.run_of_other_status fm t p (Call.current params) r hget hs
  simp only [Call.run] at hrun
  rw [hrun]
  exact Decode_of_shape fm r.Body es hshape p

/-- The sample element has the shape of an entry and carries the sample entry. -/
theorem sampleEntry_shape : EntryShape textFloat sampleEntryJSON sampleEntry :=
  ⟨_, _, _, rfl, ⟨_, rfl, by decide⟩, rfl, ⟨_, rfl, rfl⟩, rfl, ⟨_, rfl, rfl⟩, ⟨_, rfl, rfl⟩,
    ⟨_, rfl, rfl⟩, ⟨_, rfl, rfl⟩, ⟨_, rfl, rfl⟩, ⟨_, rfl, rfl⟩, ⟨_, rfl, rfl⟩, ⟨_, rfl, rfl⟩⟩

/-- The sample body has the expected shape and carries the sample entry. -/
theorem sampleBody_shape : BodyShape textFloat sampleBody [sampleEntry] := by
  refine ⟨sampleMembers, rfl, ⟨_, rfl, List.Forall₂.cons sampleEntry_shape List.Forall₂.nil⟩,
    ?_, ?_, ?_⟩
  · intro m hm hmatch
    simp only [sampleMembers, List.mem_cons, List.mem_singleton, List.not_mem_nil,
      or_false] at hm
    rcases hm with rfl | rfl <;> exact absurd hmatch (by decide)
  · intro m hm hmatch
    simp only [sampleMembers, List.mem_cons, List.mem_singleton, List.not_mem_nil,
      or_false] at hm
    rcases hm with rfl | rfl
    · refine ⟨_, rfl, ?_⟩
      intro m2 hm2 _
      simp only [List.mem_cons, List.mem_singleton, List.not_mem_nil, or_false] at hm2
      rcases hm2 with rfl | rfl <;> exact ⟨_, _, rfl, rfl⟩
    · exact absurd hmatch (by decide)
  · intro m hm
    simp only [sampleMembers, List.mem_cons, List.mem_singleton, List.not_mem_nil,
      or_false] at hm
    rcases hm with rfl | rfl <;> decide

/-- C4, amended, at a response of the API with status 200 (no top-level `dt`): the
one entry of the `list` array is the one entry of the client's `List`. -/
theorem pollution_list_decoded_in_order_witness :
    (PollutionByParams textFloat sampleTemplates (sampleClient (.ok ⟨200, sampleBody⟩))
        sampleParams).err = none ∧
      (PollutionByParams textFloat sampleTemplates (sampleClient (.ok ⟨200, sampleBody⟩))
        sampleParams).client.List.elems = [sampleEntry] :=
  pollution_list_decoded_in_order textFloat sampleTemplates (sampleClient (.ok ⟨200, sampleBody⟩))
    sampleParams ⟨200, sampleBody⟩ [sampleEntry] rfl (by decide) sampleBody_shape

/-! ## The API key under decoding -/

/-- C10, the code at the failing input. A response with status 200 whose body is
the JSON object with the single member `"key": "evil"` makes `PollutionByParams`
return no error and leaves `evil` in the client's `Key`, which was `abc` before the
call: `Key` is an exported field without tag, so the decoder stores a member named
`Key` (in any letter case) into it. -/
theorem key_overwritten_by_response_body :
    (sampleClient (.ok ⟨200, .value (.object [("key", .string "evil")])⟩)).Key = "abc" ∧
      (PollutionByParams textFloat sampleTemplates
        (sampleClient (.ok ⟨200, .value (.object [("key", .string "evil")])⟩))
        sampleParams).err = none ∧
      (PollutionByParams textFloat sampleTemplates
        (sampleClient (.ok ⟨200, .value (.object [("key", .string "evil")])⟩))
        sampleParams).client.Key = "evil" := by
  decide

/-! ## The top-level timestamp -/

/-- The values of the members of a name, over a concatenation. -/
theorem memberValues_append (a b : List (String × JSON)) (name : String) :
    memberValues (a ++ b) name = memberValues a name ++ memberValues b name := by
  simp [memberValues]

/-- A member name that matches one field name does not match a field name with a
different folded form. -/
theorem nameMatch_of_ne {key a : String} (b : String) (ha : nameMatch key a = true)
    (hab : foldName a ≠ foldName b) : nameMatch key b = false := by
  have h1 := (nameMatch_iff _ _).mp ha
  cases hb : nameMatch key b with
  | false => rfl
  | true => exact absurd (h1.trans ((nameMatch_iff _ _).mp hb).symm) hab

/-- The field of a member named `dt` stores into `Dt` as a Go string. -/
theorem findField_dt {F : Type} (fm : Float64Ops F) (k : String)
    (hk : nameMatch k "dt" = true) :
    ∃ f, findField (pollutionFields fm) k = some f ∧
      ∀ v q, (f.store v q).2 = (storeString v q.Dt).2 := by
  cases hf : findField (pollutionFields fm) k with
  | none =>
    have := findField_none hf
      ⟨"dt", fun v p => ({ p with Dt := (storeString v p.Dt).1 }, (storeString v p.Dt).2)⟩
      (by simp [pollutionFields])
    simp only at this
    rw [hk] at this
    exact absurd this (by decide)
  | some f =>
    refine ⟨f, rfl, ?_⟩
    obtain ⟨hmem, hmatch⟩ := findField_some hf
    simp only [pollutionFields, List.mem_cons, List.mem_singleton, List.not_mem_nil,
      or_false] at hmem
    rcases hmem with rfl | rfl | rfl | rfl
    · intro v q
      rfl
    · have := nameMatch_of_ne "coord" hk (by decide)
      simp only at hmatch
      rw [hmatch] at this
      exact absurd this (by decide)
    · have := nameMatch_of_ne "list" hk (by decide)
      simp only at hmatch
      rw [hmatch] at this
      exact absurd this (by decide)
    · have := nameMatch_of_ne "Key" hk (by decide)
      simp only at hmatch
      rw [hmatch] at this
      exact absurd this (by decide)

/-- Adding a `dt` member with a JSON string to members of the expected shape gives
members of the expected shape. -/
theorem MembersShape.insert_dt {F : Type} {fm : Float64Ops F} {pre post : List (String × JSON)}
    {es : List (PollutionData F)} (h : MembersShape fm (pre ++ post) es) (k x : String)
    (hk : nameMatch k "dt" = true) : MembersShape fm (pre ++ (k, .string x) :: post) es := by
  obtain ⟨⟨elems, hlist, hentries⟩, hdt, hcoord, hkey⟩ := h
  have hnl : nameMatch k "list" = false := nameMatch_of_ne "list" hk (by decide)
  have hnc : nameMatch k "coord" = false := nameMatch_of_ne "coord" hk (by decide)
  have hnk : nameMatch k "Key" = false := nameMatch_of_ne "Key" hk (by decide)
  refine ⟨⟨elems, ?_, hentries⟩, ?_, ?_, ?_⟩
  · rw [memberValues_append] at hlist
    rw [memberValues_append, memberValues_cons]
    simpa [hnl] using hlist
  · intro m hm hmatch
    simp only [List.mem_append, List.mem_cons] at hm
    rcases hm with hm | rfl | hm
    · exact hdt m (List.mem_append_left _ hm) hmatch
    · exact ⟨x, rfl⟩
    · exact hdt m (List.mem_append_right _ hm) hmatch
  · intro m hm hmatch
    simp only [List.mem_append, List.mem_cons] at hm
    rcases hm with hm | rfl | hm
    · exact hcoord m (List.mem_append_left _ hm) hmatch
    · simp only at hmatch
      rw [hnc] at hmatch
      exact absurd hmatch (by decide)
    · exact hcoord m (List.mem_append_right _ hm) hmatch
  · intro m hm
    simp only [List.mem_append, List.mem_cons] at hm
    rcases hm with hm | rfl | hm
    · exact hkey m (List.mem_append_left _ hm)
    · exact hnk
    · exact hkey m (List.mem_append_right _ hm)

/-- C9, counterexample. A response with status 200 whose body is the object with
a numeric top-level `dt` and an empty `list` makes `PollutionByParams` return the
decoder's `UnmarshalTypeError` (number into Go string), and `Dt` stays empty: the
timestamp is not stored. -/
theorem numeric_dt_rejected :
    (PollutionByParams textFloat sampleTemplates
        (sampleClient (.ok ⟨200, .value (.object [("dt", .number "1606223802"),
          ("list", .array [])])⟩)) sampleParams).err =
        some (.unmarshalType "number" "string") ∧
      (PollutionByParams textFloat sampleTemplates
        (sampleClient (.ok ⟨200, .value (.object [("dt", .number "1606223802"),
          ("list", .array [])])⟩)) sampleParams).client.Dt = "" := by
  decide

/-- C9, amended. For every client, every call of the three and every response with
a status other than 401 whose body is an object with exactly one top-level `dt`
member, the other members being of the expected shape: when the `dt` is a JSON
string the call returns no error and `Dt` is that string; when it is a JSON number
the call returns the decoder's `UnmarshalTypeError` and `Dt` is what it was before
the call. -/
theorem dt_accepted_as_string_only {F : Type} (fm : Float64Ops F) (t : Templates)
    (p : Pollution F) (c : Call F) (r : Response) (pre post : List (String × JSON))
    (k : String) (v : JSON) (es : List (PollutionData F))
    (hget : p.Settings.client.Get (c.url fm t p) = .ok r)
    (hs : r.StatusCode ≠ 401)
    (hbody : r.Body = .value (.object (pre ++ (k, v) :: post)))
    (hk : nameMatch k "dt" = true)
    (hnodt : memberValues (pre ++ post) "dt" = [])
    (hrest : MembersShape fm (pre ++ post) es) :
    (∀ x, v = .string x → (c.run fm t p).err = none ∧ (c.run fm t p).client.Dt = x) ∧
      (∀ lit, v = .number lit →
        (c.run fm t p).err = some (.unmarshalType "number" "string") ∧
          (c.run fm t p).client.Dt = p.Dt) := by
  rw [Call.run_of_other_status fm t p c r hget hs, hbody]
  simp only [Decode, storeStruct]
  have hvals : memberValues (pre ++ (k, v) :: post) "dt" = [v] := by
    rw [memberValues_append] at hnodt
    rw [memberValues_append, memberValues_cons]
    simp only [List.append_eq_nil] at hnodt
    simp [hk, hnodt.1, hnodt.2]
  constructor
  · intro x hx
    subst hx
    have hshape := hrest.insert_dt k x hk
    refine ⟨decodeMembers_err_none _ _ hshape.no_error p, ?_⟩
    rw [decodeMembers_Dt, hvals]
    rfl
  · intro lit hlit
    subst hlit
    obtain ⟨f, hf, hstore⟩ := findField_dt fm k hk
    constructor
    · apply decodeMembers_err_first (pollutionFields fm) pre post (k, .number lit) f
      · intro m hm g hg q
        exact hrest.no_error m (List.mem_append_left _ hm) g hg q
      · exact hf
      · intro q
        rw [hstore]
        rfl
    · rw [decodeMembers_Dt, hvals]
      rfl

/-- C9, amended, at a response of the API extended by a top-level `dt` given as a
JSON string, for the forecast call: no error, and `Dt` is the string. -/
theorem dt_accepted_as_string_only_witness :
    ((Call.forecast sampleParams).run textFloat sampleTemplates
        (sampleClient (.ok ⟨200, .value (.object
          ([] ++ ("dt", .string "2020-11-24") :: sampleMembers))⟩))).err = none ∧
      ((Call.forecast sampleParams).run textFloat sampleTemplates
        (sampleClient (.ok ⟨200, .value (.object
          ([] ++ ("dt", .string "2020-11-24") :: sampleMembers))⟩))).client.Dt = "2020-11-24" :=
  (dt_accepted_as_string_only textFloat sampleTemplates _ (Call.forecast sampleParams)
    ⟨200, .value (.object ([] ++ ("dt", .string "2020-11-24") :: sampleMembers))⟩
    [] sampleMembers "dt" (.string "2020-11-24") [sampleEntry] rfl (by decide) rfl (by decide) rfl
    (by
      obtain ⟨members, hm, hshape⟩ := sampleBody_shape
      simp only [sampleBody, Body.value.injEq, JSON.object.injEq] at hm
      subst hm
      exact hshape)).1 "2020-11-24" rfl

/-! ## What a call overwrites -/

/-- A `coord` object with exactly one `lon` and one `lat` decodes to these two
values, whatever was stored before. -/
theorem storeStruct_coord_value {F : Type} (fm : Float64Ops F) (cm : List (String × JSON))
    (lon lat : F) (hlon : HasFloat fm cm "lon" lon) (hlat : HasFloat fm cm "lat" lat)
    (s : Coordinates F) :
    (storeStruct "Coordinates" (coordinatesFields fm) (.object cm) s).1 = ⟨lon, lat⟩ := by
  simp only [storeStruct]
  apply Coordinates.ext
  · exact decodeMembers_float fm (coordinatesFields fm) Coordinates.Longitude "lon"
      (by simp [coordinatesFields, foldName_lon, foldName_lat])
      (by simp [coordinatesFields, foldName_lon, foldName_lat])
      (by simp [coordinatesFields]) cm lon hlon _
  · exact decodeMembers_float fm (coordinatesFields fm) Coordinates.Latitude "lat"
      (by simp [coordinatesFields, foldName_lon, foldName_lat])
      (by simp [coordinatesFields, foldName_lon, foldName_lat])
      (by simp [coordinatesFields]) cm lat hlat _

/-- C8, counterexample. A freshly constructed client makes a current call answered
with a complete body (no error), then a forecast call answered with status 200 and
the empty JSON object (no error). After the second call `Dt` and `List` still hold
the data of the first call, whereas decoding the same body into the fresh client
leaves `Dt` empty and `List` empty. -/
theorem stale_result_survives_call :
    NewPollution textFloat twoAnswersClient "abc" [] = .ok freshClient ∧
      (PollutionByParams textFloat sampleTemplates freshClient sampleParams).err = none ∧
      (ForecastPollutionByParams textFloat sampleTemplates
        (PollutionByParams textFloat sampleTemplates freshClient sampleParams).client
        sampleParams).err = none ∧
      (ForecastPollutionByParams textFloat sampleTemplates
        (PollutionByParams textFloat sampleTemplates freshClient sampleParams).client
        sampleParams).client.Dt = "2020-11-24" ∧
      (ForecastPollutionByParams textFloat sampleTemplates
        (PollutionByParams textFloat sampleTemplates freshClient sampleParams).client
        sampleParams).client.List.elems = [sampleEntry] ∧
      (Decode textFloat (.value (.object [])) freshClient).1.Dt = "" ∧
      (Decode textFloat (.value (.object [])) freshClient).1.List.elems = [] :=
  ⟨rfl, by decide⟩

/-- C8, amended. For every prior client state, every call of the three and every
response with a status other than 401 whose body is a JSON object: a result field
for which the body has no member keeps the value it had before the call; and when
the body has the expected shape with exactly one `dt` string, exactly one `coord`
with one `lon` and one `lat`, and complete list entries, the call returns no error
and the stored `Dt`, `Location` and `List` entries equal those of decoding the same
body into any other client, a freshly constructed one included. -/
theorem result_overwritten_where_body_has_fields {F : Type} (fm : Float64Ops F) (t : Templates)
    (p : Pollution F) (c : Call F) (r : Response) (members : List (String × JSON))
    (hget : p.Settings.client.Get (c.url fm t p) = .ok r)
    (hs : r.StatusCode ≠ 401)
    (hbody : r.Body = .value (.object members)) :
    (memberValues members "dt" = [] → (c.run fm t p).client.Dt = p.Dt) ∧
      (memberValues members "coord" = [] → (c.run fm t p).client.Location = p.Location) ∧
      (memberValues members "list" = [] → (c.run fm t p).client.List = p.List) ∧
      (∀ es dt cm lon lat, MembersShape fm members es →
        memberValues members "dt" = [.string dt] →
        memberValues members "coord" = [.object cm] →
        HasFloat fm cm "lon" lon → HasFloat fm cm "lat" lat →
        ∀ q : Pollution F,
          (c.run fm t p).err = none ∧
          (c.run fm t p).client.Dt = (Decode fm r.Body q).1.Dt ∧
          (c.run fm t p).client.Location = (Decode fm r.Body q).1.Location ∧
          (c.run fm t p).client.List.elems = (Decode fm r.Body q).1.List.elems) := by
  rw [Call.run_of_other_status fm t p c r hget hs, hbody]
  simp only [Decode, storeStruct]
  refine ⟨?_, ?_, ?_, ?_⟩
  · intro h
    rw [decodeMembers_Dt, h]
    rfl
  · intro h
    rw [decodeMembers_Location, h]
    rfl
  · intro h
    rw [decodeMembers_List, h]
    rfl
  · intro es dt cm lon lat hshape hdt hcoord hlon hlat q
    obtain ⟨⟨elems, hlist, hentries⟩, _⟩ := id hshape
    refine ⟨decodeMembers_err_none _ _ hshape.no_error p, ?_, ?_, ?_⟩
    · rw [decodeMembers_Dt, decodeMembers_Dt, hdt]
      rfl
    · rw [decodeMembers_Location, decodeMembers_Location, hcoord]
      simp only [List.foldl_cons, List.foldl_nil]
      rw [storeStruct_coord_value fm cm lon lat hlon hlat,
        storeStruct_coord_value fm cm lon lat hlon hlat]
    · rw [decodeMembers_List, decodeMembers_List, hlist]
      simp only [List.foldl_cons, List.foldl_nil]
      rw [(storeSlice_of_shape fm elems es hentries _).1,
        (storeSlice_of_shape fm elems es hentries _).1]

/-- C8, amended, at the second call of the counterexample: the body has no `dt`
member and no `list` member, and `Dt` and `List` are those left by the first
call. -/
theorem result_overwritten_where_body_has_fields_witness :
    ((Call.forecast sampleParams).run textFloat sampleTemplates
        (PollutionByParams textFloat sampleTemplates freshClient sampleParams).client).client.Dt =
        (PollutionByParams textFloat sampleTemplates freshClient sampleParams).client.Dt ∧
      ((Call.forecast sampleParams).run textFloat sampleTemplates
        (PollutionByParams textFloat sampleTemplates freshClient sampleParams).client).client.List =
        (PollutionByParams textFloat sampleTemplates freshClient sampleParams).client.List :=
  ⟨(result_overwritten_where_body_has_fields textFloat sampleTemplates
      (PollutionByParams textFloat sampleTemplates freshClient sampleParams).client
      (Call.forecast sampleParams) ⟨200, .value (.object [])⟩ [] rfl (by decide) rfl).1 rfl,
    (result_overwritten_where_body_has_fields textFloat sampleTemplates
      (PollutionByParams textFloat sampleTemplates freshClient sampleParams).client
      (Call.forecast sampleParams) ⟨200, .value (.object [])⟩ [] rfl (by decide)
      rfl).2.2.1 rfl⟩

end OpenWeatherMap
